import Mathlib

/-!
Study-Environment-Analytics: the background time-accounting engine.

A shallow embedding of `src/background.js` and the properties its specification
states about it.

Modelling conventions.

* Handlers run one at a time (the specification's single-writer assumption), so
  every `async` function is a function `World → World`.
* A `World` holds what the handlers can observe or change outside their own
  locals: the record stored under `STATE_KEY` (absent until the first write),
  whether the offscreen document exists, and the log of effects performed
  (storage writes, offscreen creation, runtime messages to the audio page).
* What a handler reads from the browser (each `Date.now()` reading, the url of
  a tab, a fresh UUID) is an argument of the handler.
* JavaScript numbers are `Int`: clock readings are integral milliseconds and
  all tallies are sums of differences of clock readings; values are assumed to
  stay inside the exactly representable integer range of a double.
* Plain objects used as dictionaries are association lists of their own
  properties. A day map is read and written at a hostname, which can be the
  name of a member of `Object.prototype` (`constructor`, `__proto__`, ...): its
  read `dayMap[domain]` and its assignment go through the prototype, and its
  values are numbers or the strings that `+` makes of a non-number. The two
  outer dictionaries are read and written at day keys only, which have the
  form `yyyy-mm-dd` and are never such a name, so there the own-property
  operations are exact.
* The host's calendar (`new Date(ts)` in the local time zone) and its URL
  parser (`new URL(url).hostname`) are the two fields of `Env`.
-/

namespace StudyEnv

/-! ## Dictionaries -/

/-- The own properties of a plain JavaScript object used as a dictionary with
string keys, in insertion order. -/
abbrev JsObj (α : Type) := List (String × α)

/-- Own-property lookup of `k`; `none` when `o` has no own property `k`. It is
the read `o[k]` whenever `k` is not the name of a member of `Object.prototype`,
as at every day key. -/
def JsObj.get? {α : Type} : JsObj α → String → Option α
  | [], _ => none
  | (k', v) :: rest, k => if k' = k then some v else JsObj.get? rest k

/-- Definition of the own data property `k` with value `v` on a copy of `o`: an
existing key keeps its place, a new key goes last. It is the assignment
`o[k] = v` whenever `k` is an own property or is not `__proto__`. -/
def JsObj.set {α : Type} : JsObj α → String → α → JsObj α
  | [], k, v => [(k, v)]
  | (k', v') :: rest, k, v =>
    if k' = k then (k, v) :: rest else (k', v') :: JsObj.set rest k v

/-- Sum of `Object.values(o)` for a dictionary of numbers. -/
def JsObj.sumValues (o : JsObj Int) : Int := (o.map Prod.snd).sum

/-- A value stored in a day map: a number of ms, or a string once `+` met a
non-number. -/
inductive JsVal where
  | num (v : Int)
  | str (s : String)
  deriving DecidableEq, Repr

/-- The members of `Object.prototype` by name, each with the text `String(x)` of
the value `x` a read finds there (V8): the functions print as native code, the
accessor `__proto__` returns `Object.prototype` itself. `none` for every other
name. -/
def inheritedText (name : String) : Option String :=
  if name = "__proto__" then some "[object Object]"
  else if name = "constructor" then some "function Object() { [native code] }"
  else if name ∈ ["__defineGetter__", "__defineSetter__", "hasOwnProperty",
      "__lookupGetter__", "__lookupSetter__", "isPrototypeOf", "propertyIsEnumerable",
      "toString", "valueOf", "toLocaleString"] then
    some ("function " ++ name ++ "() { [native code] }")
  else none

/-- What the read `o[k]` of a plain object finds. -/
inductive JsRead where
  | own (v : JsVal)
  | inherited (text : String)
  | undefined
  deriving DecidableEq, Repr

/-- The read `o[k]` on a plain object: the own property, else the member of
`Object.prototype` of that name, else `undefined`. -/
def JsObj.read (o : JsObj JsVal) (k : String) : JsRead :=
  match o.get? k with
  | some v => JsRead.own v
  | none =>
    match inheritedText k with
    | some text => JsRead.inherited text
    | none => JsRead.undefined

/-- The expression `(x || 0) + ms` for what a read found and a number `ms`: a
number stays a number, the empty string is falsy, and a non-empty string, a
function or an object is truthy and makes `+` a concatenation with
`String(ms)`. -/
def orZeroPlus (x : JsRead) (ms : Int) : JsVal :=
  match x with
  | JsRead.own (JsVal.num v) => JsVal.num ((if v = 0 then 0 else v) + ms)
  | JsRead.own (JsVal.str s) =>
    if s = "" then JsVal.num (0 + ms) else JsVal.str (s ++ toString ms)
  | JsRead.inherited text => JsVal.str (text ++ toString ms)
  | JsRead.undefined => JsVal.num (0 + ms)

/-- The assignment `o[k] = v` of a number or string on a copy of a plain
object: an own property is overwritten; otherwise the name `__proto__` reaches
the setter of `Object.prototype`, which ignores a value that is not an object,
and every other name becomes a new own property. -/
def JsObj.assign (o : JsObj JsVal) (k : String) (v : JsVal) : JsObj JsVal :=
  match o.get? k with
  | some _ => o.set k v
  | none => if k = "__proto__" then o else o.set k v

/-- The number an entry stands for in a sum of durations: its value when it is
a number, 0 when it is missing or a string. -/
def numOf : Option JsVal → Int
  | some (JsVal.num v) => v
  | _ => 0

/-- Sum of the numeric values of a day map. -/
def JsObj.sumNums (o : JsObj JsVal) : Int := (o.map (fun p => numOf (some p.2))).sum

/-- The expression `x || 0` on a number or `undefined`. -/
def orZero : Option Int → Int
  | some v => if v = 0 then 0 else v
  | none => 0

/-- The expression `x || d` on a number or `null`. -/
def orNum (x : Option Int) (d : Int) : Int :=
  match x with
  | some v => if v = 0 then d else v
  | none => d

/-- The expression `x || {}` on an object or `undefined`. -/
def orEmpty {α : Type} : Option (JsObj α) → JsObj α
  | some o => o
  | none => []

/-- The expression `x || d` on a string or `undefined`. -/
def orString (x : Option String) (d : String) : String :=
  match x with
  | some s => if s = "" then d else s
  | none => d

/-- Truthiness of a number or `null`. -/
def truthyNum : Option Int → Bool
  | some v => decide (v ≠ 0)
  | none => false

/-- Truthiness of a string or `null`. -/
def truthyStr : Option String → Bool
  | some s => decide (s ≠ "")
  | none => false

/-! ## Data model -/

/-- Values of `chrome.idle.IdleState`. -/
inductive IdleState where
  | active
  | idle
  | locked
  deriving DecidableEq, Repr

/-- An entry of `sessions`, built by `stopSession`. -/
structure SessionRecord where
  start : Option Int
  endTs : Int
  durationMs : Int
  env : Option String
  focusRating : Option Int
  notes : String
  deriving DecidableEq, Repr

/-- An entry of `presets`, built by the `SAVE_PRESET` branch. -/
structure Preset where
  id : String
  name : Option String
  env : Option String
  audioOn : Bool
  durationMin : Int
  deriving DecidableEq, Repr

/-- The record stored under `STATE_KEY`. -/
structure TrackingState where
  sessionActive : Bool
  sessionStart : Option Int
  sessionEnv : Option String
  sessionAudioOn : Bool
  lastActiveDomain : Option String
  lastSwitchTs : Option Int
  idleState : IdleState
  totalsByDay : JsObj Int
  domainsByDay : JsObj (JsObj JsVal)
  sessions : List SessionRecord
  presets : List Preset
  deriving DecidableEq, Repr

/-- The literal that `getState` returns when nothing is stored. -/
def defaultState : TrackingState where
  sessionActive := false
  sessionStart := none
  sessionEnv := some "library"
  sessionAudioOn := true
  lastActiveDomain := none
  lastSwitchTs := none
  idleState := IdleState.active
  totalsByDay := []
  domainsByDay := []
  sessions := []
  presets := []

/-- Effects a handler performs on its surroundings, in the order performed. -/
inductive Effect where
  | storageSet
  | createOffscreen
  | sendAudioPlay (env : Option String)
  | sendAudioStop
  deriving DecidableEq, Repr

/-- Everything the handlers share. -/
structure World where
  store : Option TrackingState
  offscreen : Bool
  log : List Effect
  deriving DecidableEq, Repr

/-- The world before the extension has run: empty storage, no offscreen page. -/
def World.init : World where
  store := none
  offscreen := false
  log := []

/-- The host facilities the code calls: the local calendar behind `dayKey` and
the URL parser behind `domainFromUrl` (`none` when `new URL(url)` throws). -/
structure Env where
  dayKey : Int → String
  urlHost : String → Option String

/-! ## A concrete calendar: `dayKey` in the UTC zone -/

/-- `String(n).padStart(2, "0")`. -/
def pad2 (n : Int) : String :=
  let s := toString n
  if s.length < 2 then "0" ++ s else s

/-- The function `dayKey(ts)` of the source when the local zone is UTC: year,
month and day of the proleptic Gregorian calendar, `NaN` fields when `ts` is
outside the range of `Date`. -/
def dayKeyUTC (ts : Int) : String :=
  if ts < -8640000000000000 ∨ 8640000000000000 < ts then "NaN-NaN-NaN" else
  let days := ts / 86400000
  let z := days + 719468
  let era := z / 146097
  let doe := z - era * 146097
  let yoe := (doe - doe / 1460 + doe / 36524 - doe / 146096) / 365
  let doy := doe - (365 * yoe + yoe / 4 - yoe / 100)
  let mp := (5 * doy + 2) / 153
  let dd := doy - (153 * mp + 2) / 5 + 1
  let mm := if mp < 10 then mp + 3 else mp - 9
  let yyyy := yoe + era * 400 + (if mm ≤ 2 then 1 else 0)
  toString yyyy ++ "-" ++ pad2 mm ++ "-" ++ pad2 dd

/-! ## Helpers of the source -/

/-- The function `domainFromUrl`: the hostname, or `"unknown"` when parsing throws. -/
def domainFromUrl (env : Env) (url : String) : String :=
  match env.urlHost url with
  | some h => h
  | none => "unknown"

/-- The function `getState`: the stored record, or the default literal. -/
def getState (w : World) : TrackingState :=
  match w.store with
  | some s => s
  | none => defaultState

/-- The function `setState(patch)`: read, merge, write the whole record. -/
def setState (patch : TrackingState → TrackingState) (w : World) : World :=
  let next := patch (getState w)
  { w with store := some next, log := w.log ++ [Effect.storageSet] }

/-- The function `ensureOffscreen`. -/
def ensureOffscreen (w : World) : World :=
  if w.offscreen then w
  else { w with offscreen := true, log := w.log ++ [Effect.createOffscreen] }

/-- The function `audioPlay(env)`. -/
def audioPlay (e : Option String) (w : World) : World :=
  let w1 := ensureOffscreen w
  { w1 with log := w1.log ++ [Effect.sendAudioPlay e] }

/-- The function `audioStop`. -/
def audioStop (w : World) : World :=
  if !w.offscreen then w
  else { w with log := w.log ++ [Effect.sendAudioStop] }

/-! ## Tracking core -/

/-- The function `addTimeForCurrentDomain(endTs)`, the specification's
`closeInterval`. -/
def addTimeForCurrentDomain (env : Env) (endTs : Int) (w : World) : World :=
  let s := getState w
  if !s.sessionActive then w
  else if s.idleState ≠ IdleState.active then w
  else if !truthyNum s.lastSwitchTs || !truthyStr s.lastActiveDomain then w
  else
    match s.lastSwitchTs, s.lastActiveDomain with
    | some startTs, some domain =>
      let ms := max 0 (endTs - startTs)
      if ms ≤ 0 then w
      else
        let dk := env.dayKey endTs
        let totalsByDay := s.totalsByDay.set dk (orZero (s.totalsByDay.get? dk) + ms)
        let dayMap := orEmpty (s.domainsByDay.get? dk)
        let dayMap := dayMap.assign domain (orZeroPlus (dayMap.read domain) ms)
        let domainsByDay := s.domainsByDay.set dk dayMap
        setState (fun cur => { cur with
          totalsByDay := totalsByDay
          domainsByDay := domainsByDay
          lastSwitchTs := some endTs }) w
    | _, _ => w

/-- The function `setActiveDomainFromTab`: `tabUrl` is `tab?.url` of the tab
returned by `chrome.tabs.get`, `t` the reading of `now()`. -/
def setActiveDomainFromTab (env : Env) (tabUrl : Option String) (t : Int) (w : World) : World :=
  let url := orString tabUrl ""
  let domain := domainFromUrl env url
  setState (fun cur => { cur with
    lastActiveDomain := some domain
    lastSwitchTs := some t }) w

/-! ## Session control -/

/-- The function `startSession`: `t` is the reading of `now()`, `focusedUrl` the
`url` of the first tab answered by `chrome.tabs.query`. -/
def startSession (env : Env) (e : Option String) (audioOn : Option Bool)
    (t : Int) (focusedUrl : Option String) (w : World) : World :=
  let s := getState w
  if s.sessionActive then w
  else
    let domain := domainFromUrl env (orString focusedUrl "")
    let w1 := setState (fun cur => { cur with
      sessionActive := true
      sessionStart := some t
      sessionEnv := some (orString e "library")
      sessionAudioOn := decide (audioOn ≠ some false)
      lastActiveDomain := some domain
      lastSwitchTs := some t
      idleState := IdleState.active }) w
    if audioOn ≠ some false then audioPlay (some (orString e "library")) w1 else w1

/-- The function `stopSession`: `t` is the reading of `now()`. -/
def stopSession (env : Env) (focusRating : Option Int) (notes : String)
    (t : Int) (w : World) : World :=
  let s := getState w
  if !s.sessionActive then w
  else
    let w1 := addTimeForCurrentDomain env t w
    let durationMs := max 0 (t - orNum s.sessionStart t)
    let session : SessionRecord :=
      { start := s.sessionStart, endTs := t, durationMs := durationMs,
        env := s.sessionEnv, focusRating := focusRating, notes := notes }
    let sessions := (session :: s.sessions).take 200
    let w2 := setState (fun cur => { cur with
      sessionActive := false
      sessionStart := none
      lastActiveDomain := none
      lastSwitchTs := none
      sessions := sessions }) w1
    audioStop w2

/-! ## Chrome events -/

/-- The `chrome.tabs.onActivated` listener: `t` is the first reading of `now()`,
`t'` the one taken inside `setActiveDomainFromTab`. -/
def onActivated (env : Env) (tabUrl : Option String) (t t' : Int) (w : World) : World :=
  let w1 := addTimeForCurrentDomain env t w
  let s := getState w1
  if s.sessionActive && decide (s.idleState = IdleState.active) then
    setActiveDomainFromTab env tabUrl t' w1
  else w1

/-- The `chrome.tabs.onUpdated` listener with arguments `(tabId, info, tab)`:
`infoUrl` is `info.url`, `tabObjId` is `tab?.id`, `t` the reading of `now()`. -/
def onUpdated (env : Env) (tabId : Nat) (infoUrl : Option String) (tabObjId : Option Nat)
    (t : Int) (w : World) : World :=
  match infoUrl with
  | none => w
  | some url =>
    if url = "" then w
    else
      let s := getState w
      if !s.sessionActive then w
      else if some tabId ≠ tabObjId then w
      else
        let w1 := addTimeForCurrentDomain env t w
        setState (fun cur => { cur with
          lastActiveDomain := some (domainFromUrl env url)
          lastSwitchTs := some t }) w1

/-- The `chrome.idle.onStateChanged` listener: `t` and `t'` are its two readings
of `now()`, `focusedUrl` what `chrome.tabs.query` answers. -/
def onStateChanged (env : Env) (state : IdleState) (t t' : Int)
    (focusedUrl : Option String) (w : World) : World :=
  let w1 := addTimeForCurrentDomain env t w
  let w2 := setState (fun cur => { cur with idleState := state }) w1
  let s := getState w2
  if !s.sessionActive then w2
  else if state = IdleState.active then
    setState (fun cur => { cur with
      lastActiveDomain := some (domainFromUrl env (orString focusedUrl ""))
      lastSwitchTs := some t' }) w2
  else w2

/-! ## Messages from popup and options -/

/-- What `sendResponse` is called with. -/
inductive Response where
  | state (s : TrackingState)
  | ok
  | error (text : String)
  deriving DecidableEq, Repr

/-- A message received by `chrome.runtime.onMessage`, by its `type`, with the
fields the listener reads and the browser readings its branch takes:
`t` a reading of `now()`, `focusedUrl` the answer of `chrome.tabs.query`,
`uuid` the value of `crypto.randomUUID()`. -/
inductive Msg where
  | getState
  | startSession (e : Option String) (audioOn : Option Bool) (t : Int)
      (focusedUrl : Option String)
  | stopSession (focusRating : Option Int) (notes : Option String) (t : Int)
  | setEnv (e : Option String)
  | toggleAudio (audioOn : Option Bool)
  | savePreset (name e : Option String) (audioOn : Option Bool)
      (durationMin : Option Int) (uuid : String)
  | deletePreset (id : Option String)
  | unrecognized (type : String)
  deriving DecidableEq, Repr

/-- The `chrome.runtime.onMessage` listener: the world afterwards and the
response sent. -/
def onMessage (env : Env) (msg : Msg) (w : World) : World × Response :=
  match msg with
  | Msg.getState => (w, Response.state (getState w))
  | Msg.startSession e audioOn t focusedUrl =>
    (startSession env e audioOn t focusedUrl w, Response.ok)
  | Msg.stopSession focusRating notes t =>
    (stopSession env focusRating (notes.getD "") t w, Response.ok)
  | Msg.setEnv e =>
    let w1 := setState (fun cur => { cur with sessionEnv := e }) w
    let s := getState w1
    (if s.sessionActive && s.sessionAudioOn then audioPlay e w1 else w1, Response.ok)
  | Msg.toggleAudio audioOn =>
    let w1 := setState (fun cur => { cur with sessionAudioOn := decide (audioOn = some true) }) w
    let s := getState w1
    if !s.sessionActive then (w1, Response.ok)
    else if s.sessionAudioOn then (audioPlay s.sessionEnv w1, Response.ok)
    else (audioStop w1, Response.ok)
  | Msg.savePreset name e audioOn durationMin uuid =>
    let s := getState w
    let preset : Preset :=
      { id := uuid, name := name, env := e,
        audioOn := decide (audioOn ≠ some false), durationMin := orNum durationMin 25 }
    let presets := (preset :: s.presets).take 50
    (setState (fun cur => { cur with presets := presets }) w, Response.ok)
  | Msg.deletePreset id =>
    let s := getState w
    let presets := s.presets.filter (fun p => decide (some p.id ≠ id))
    (setState (fun cur => { cur with presets := presets }) w, Response.ok)
  | Msg.unrecognized _ => (w, Response.error "Unknown message type")

/-- A message object as `chrome.runtime.onMessage` receives it: its `type` and
the fields the listener reads. -/
structure RawMsg where
  type : String
  env : Option String
  audioOn : Option Bool
  focusRating : Option Int
  notes : Option String
  name : Option String
  durationMin : Option Int
  id : Option String
  deriving DecidableEq, Repr

/-- The chain of `if (msg.type === ...)` tests of the listener: the branch a
received message takes, with the browser readings that branch uses. -/
def Msg.ofRaw (raw : RawMsg) (t : Int) (focusedUrl : Option String) (uuid : String) : Msg :=
  if raw.type = "GET_STATE" then Msg.getState
  else if raw.type = "START_SESSION" then Msg.startSession raw.env raw.audioOn t focusedUrl
  else if raw.type = "STOP_SESSION" then Msg.stopSession raw.focusRating raw.notes t
  else if raw.type = "SET_ENV" then Msg.setEnv raw.env
  else if raw.type = "TOGGLE_AUDIO" then Msg.toggleAudio raw.audioOn
  else if raw.type = "SAVE_PRESET" then
    Msg.savePreset raw.name raw.env raw.audioOn raw.durationMin uuid
  else if raw.type = "DELETE_PRESET" then Msg.deletePreset raw.id
  else Msg.unrecognized raw.type

/-- The listener on a received message object. -/
def onRawMessage (env : Env) (raw : RawMsg) (t : Int) (focusedUrl : Option String)
    (uuid : String) (w : World) : World × Response :=
  onMessage env (Msg.ofRaw raw t focusedUrl uuid) w

/-- The message types the listener recognizes. -/
def recognizedTypes : List String :=
  ["GET_STATE", "START_SESSION", "STOP_SESSION", "SET_ENV", "TOGGLE_AUDIO", "SAVE_PRESET",
    "DELETE_PRESET"]

/-! ## Runs -/

/-- One serialized handler execution. -/
inductive Event where
  | message (msg : Msg)
  | tabActivated (tabUrl : Option String) (t t' : Int)
  | tabUpdated (tabId : Nat) (infoUrl : Option String) (tabObjId : Option Nat) (t : Int)
  | idleChanged (state : IdleState) (t t' : Int) (focusedUrl : Option String)
  deriving DecidableEq, Repr

/-- The world after one handler execution. -/
def step (env : Env) (w : World) (ev : Event) : World :=
  match ev with
  | Event.message msg => (onMessage env msg w).1
  | Event.tabActivated tabUrl t t' => onActivated env tabUrl t t' w
  | Event.tabUpdated tabId infoUrl tabObjId t => onUpdated env tabId infoUrl tabObjId t w
  | Event.idleChanged state t t' focusedUrl => onStateChanged env state t t' focusedUrl w

/-- The world after a sequence of handler executions, oldest first. -/
def run (env : Env) (w : World) (evs : List Event) : World :=
  evs.foldl (step env) w

/-- The clock readings a handler execution takes, in order. -/
def Event.readings : Event → List Int
  | Event.message (Msg.startSession _ _ t _) => [t]
  | Event.message (Msg.stopSession _ _ t) => [t]
  | Event.message _ => []
  | Event.tabActivated _ t t' => [t, t']
  | Event.tabUpdated _ _ _ t => [t]
  | Event.idleChanged _ t t' _ => [t, t']

/-- Sum of all values of `totalsByDay`. -/
def totalTracked (s : TrackingState) : Int := s.totalsByDay.sumValues

/-- Sum of all numeric entries of all day maps of `domainsByDay`. -/
def totalByDomain (s : TrackingState) : Int :=
  (s.domainsByDay.map (fun p => JsObj.sumNums p.2)).sum

/-! ## Predicates used in the statements -/

/-- The guard of `addTimeForCurrentDomain` passes and the elapsed time is
positive: the interval anchored at `(st, dom)` is open and `endTs` is later. -/
def Attributes (s : TrackingState) (st : Int) (dom : String) (endTs : Int) : Prop :=
  s.sessionActive = true ∧ s.idleState = IdleState.active ∧
  s.lastSwitchTs = some st ∧ st ≠ 0 ∧ s.lastActiveDomain = some dom ∧ dom ≠ "" ∧ st < endTs

/-- The two tallies of a state. -/
def tallies (s : TrackingState) : JsObj Int × JsObj (JsObj JsVal) :=
  (s.totalsByDay, s.domainsByDay)

/-- The conservation property of the specification: every day key present in
`totalsByDay` has a day map whose entries are numbers that sum to the total. -/
def Conserved (s : TrackingState) : Prop :=
  ∀ d v, s.totalsByDay.get? d = some v →
    ∃ m, s.domainsByDay.get? d = some m ∧ (∀ p ∈ m, ∃ n, p.2 = JsVal.num n) ∧
      v = m.sumNums

/-- Whether the event is a `START_SESSION` or `STOP_SESSION` command. -/
def Event.isLifecycle : Event → Bool
  | Event.message (Msg.startSession _ _ _ _) => true
  | Event.message (Msg.stopSession _ _ _) => true
  | _ => false

/-- The clock readings taken by a sequence of handler executions, in order. -/
def readingsOf : List Event → List Int
  | [] => []
  | ev :: rest => ev.readings ++ readingsOf rest

/-- Invariant of a running session started at reading `T0` when `base` was
already tracked: the anchor `l` is not before `T0` and what was tracked since
the start is at most `l - T0`. -/
def Within (T0 base : Int) (s : TrackingState) (l : Int) : Prop :=
  s.sessionActive = true ∧ s.lastSwitchTs = some l ∧ T0 ≤ l ∧ totalTracked s - base ≤ l - T0

/-- The end-to-end scenario of the specification with base reading `T0`: start
on the page `ua`, switch to the page `ub` after 5 s, idle after 8 s, active
again on `ub` after 12 s, stop after 15 s; every handler sees one reading. -/
def scenario (e : Option String) (audioOn : Option Bool) (ua ub : String)
    (fu : Option String) (fr : Option Int) (notes : Option String) (T0 : Int) : List Event :=
  [ Event.message (Msg.startSession e audioOn T0 (some ua)),
    Event.tabActivated (some ub) (T0 + 5000) (T0 + 5000),
    Event.idleChanged IdleState.idle (T0 + 8000) (T0 + 8000) fu,
    Event.idleChanged IdleState.active (T0 + 12000) (T0 + 12000) (some ub),
    Event.message (Msg.stopSession fr notes (T0 + 15000)) ]

/-- The domain a tab event anchors to when its handler acts in a running,
active session; `none` for events whose handler returns before anchoring and
for events that are not single-reading tab events. -/
def Event.tabDomain (env : Env) : Event → Option String
  | Event.tabActivated tabUrl _ _ => some (domainFromUrl env (orString tabUrl ""))
  | Event.tabUpdated tabId (some url) tabObjId _ =>
    if url ≠ "" ∧ some tabId = tabObjId then some (domainFromUrl env url) else none
  | _ => none

/-- A tab-activated event whose handler sees one clock reading, or a
tab-url-updated event. -/
def Event.isSingleReadingTab : Event → Bool
  | Event.tabActivated _ t t' => decide (t = t')
  | Event.tabUpdated _ _ _ _ => true
  | _ => false

/-- Invariant of a running, never idle session started at `T0` with `base`
already tracked: the anchor is set and everything since `T0` up to the anchor
`l` has been tracked. -/
def Exact (T0 base : Int) (s : TrackingState) (l : Int) : Prop :=
  s.sessionActive = true ∧ s.idleState = IdleState.active ∧ s.lastSwitchTs = some l ∧ l ≠ 0 ∧
  (∃ d, s.lastActiveDomain = some d ∧ d ≠ "") ∧ totalTracked s - base = l - T0

/-- What `audioPlay(env)` adds to the log: the offscreen document is created
when absent, then the play message is sent. -/
def playEffects (offscreen : Bool) (e : Option String) : List Effect :=
  (if offscreen then [] else [Effect.createOffscreen]) ++ [Effect.sendAudioPlay e]

/-- What `audioStop()` adds to the log: the stop message when the offscreen
document exists, nothing otherwise. -/
def stopEffects (offscreen : Bool) : List Effect :=
  if offscreen then [Effect.sendAudioStop] else []

/-- How one handler execution may change the two capped lists: `sessions` is
kept or gets one record in front and is cut to its first 200 entries; `presets`
is kept, or gets one preset in front and is cut to its first 50 entries, or
loses the entries carrying one id. -/
def ListsStep (s s' : TrackingState) : Prop :=
  (s'.sessions = s.sessions ∨ ∃ r, s'.sessions = (r :: s.sessions).take 200) ∧
  (s'.presets = s.presets ∨ (∃ p, s'.presets = (p :: s.presets).take 50) ∨
    ∃ id : Option String, s'.presets = s.presets.filter (fun p => decide (some p.id ≠ id)))

/-- The anchor fields are both null or both non-null. -/
def Anchored (s : TrackingState) : Prop :=
  s.lastActiveDomain.isSome = s.lastSwitchTs.isSome

/-! ## Concrete surroundings used in the examples -/

/-- The URL parser on the URLs used in the examples: `new URL(u).hostname` is
`a.com` and `b.com` for the two web pages, empty for a `file:` URL, `__proto__`
and `constructor` for the two single-label hosts, and the constructor throws on
every other string listed here as `none`. -/
def sampleHost (u : String) : Option String :=
  if u = "https://a.com/" then some "a.com"
  else if u = "https://b.com/x" then some "b.com"
  else if u = "file:///notes.txt" then some ""
  else if u = "http://__proto__/" then some "__proto__"
  else if u = "http://constructor/" then some "constructor"
  else none

/-- A host in the UTC zone with the sample URL parser. -/
def hostEnv : Env where
  dayKey := dayKeyUTC
  urlHost := sampleHost

/-- The world after `START_SESSION` at 2023-11-14T22:13:20Z with the focused
tab on `https://a.com/`. -/
def aTabWorld : World :=
  (onMessage hostEnv
    (Msg.startSession (some "cafe") (some true) 1700000000000 (some "https://a.com/"))
    World.init).1

/-- The world after `START_SESSION` at the same instant with the focused tab on
a local file, whose hostname is empty. -/
def fileTabWorld : World :=
  (onMessage hostEnv
    (Msg.startSession (some "cafe") (some true) 1700000000000 (some "file:///notes.txt"))
    World.init).1

/-- The world `aTabWorld` after the idle detector reported `idle` three seconds
later. -/
def idleWorld : World :=
  onStateChanged hostEnv IdleState.idle 1700000003000 1700000003000 (some "https://a.com/")
    aTabWorld

/-- The world after `START_SESSION` at clock reading 0 with the focused tab on
`https://a.com/`. -/
def zeroStartWorld : World :=
  (onMessage hostEnv (Msg.startSession (some "cafe") (some true) 0 (some "https://a.com/"))
    World.init).1

/-- The world `World.init` after a `SAVE_PRESET` that stored one preset with id
`p-1`. -/
def presetWorld : World :=
  (onMessage hostEnv (Msg.savePreset (some "Deep work") (some "cafe") (some true) (some 50)
    "p-1") World.init).1

/-- The world after `START_SESSION` at 2023-11-14T22:13:20Z with the focused
tab on `http://constructor/`. -/
def constructorTabWorld : World :=
  (onMessage hostEnv
    (Msg.startSession (some "cafe") (some true) 1700000000000 (some "http://constructor/"))
    World.init).1

/-- The run from the default state that starts a session with the focused tab on
`http://__proto__/` and stops it five seconds later. -/
def protoRun : List Event :=
  [ Event.message (Msg.startSession (some "cafe") (some true) 1700000000000
      (some "http://__proto__/")),
    Event.message (Msg.stopSession none none 1700000005000) ]

/-! # Properties -/

/-! ## Dictionary lemmas -/

theorem orZero_some (v : Int) : orZero (some v) = v := by
  by_cases h : v = 0
  · simp [orZero, h]
  · simp [orZero, h]

theorem JsObj.get?_set_self {α : Type} (o : JsObj α) (k : String) (v : α) :
    (o.set k v).get? k = some v := by
  induction o with
  | nil => simp [JsObj.set, JsObj.get?]
  | cons p rest ih =>
    obtain ⟨k', v'⟩ := p
    by_cases h : k' = k
    · simp [JsObj.set, JsObj.get?, h]
    · simp [JsObj.set, JsObj.get?, h, ih]

theorem JsObj.get?_set_ne {α : Type} (o : JsObj α) (k j : String) (v : α) (h : j ≠ k) :
    (o.set k v).get? j = o.get? j := by
  induction o with
  | nil => simp [JsObj.set, JsObj.get?, Ne.symm h]
  | cons p rest ih =>
    obtain ⟨k', v'⟩ := p
    by_cases hk : k' = k
    · subst hk
      simp [JsObj.set, JsObj.get?, Ne.symm h]
    · by_cases hj : k' = j
      · subst hj
        simp [JsObj.set, JsObj.get?, hk]
      · simp [JsObj.set, JsObj.get?, hk, hj, ih]

theorem JsObj.sumValues_set (o : JsObj Int) (k : String) (v : Int) :
    (o.set k v).sumValues = o.sumValues - orZero (o.get? k) + v := by
  induction o with
  | nil => simp [JsObj.set, JsObj.get?, JsObj.sumValues, orZero]
  | cons p rest ih =>
    obtain ⟨k', v'⟩ := p
    by_cases hk : k' = k
    · simp only [JsObj.set, JsObj.get?, hk, if_true, orZero_some]
      simp only [JsObj.sumValues, List.map_cons, List.sum_cons]
      ring
    · simp only [JsObj.set, JsObj.get?, hk, if_false]
      simp only [JsObj.sumValues, List.map_cons, List.sum_cons] at ih ⊢
      rw [ih]
      ring

/-! ## Day-map lemmas -/

theorem inheritedText_proto : inheritedText "__proto__" = some "[object Object]" := by
  simp [inheritedText]

theorem ne_proto_of_plain {k : String} (h : inheritedText k = none) : k ≠ "__proto__" := by
  intro hk
  rw [hk, inheritedText_proto] at h
  cases h

theorem JsObj.get?_assign_ne (o : JsObj JsVal) (k j : String) (v : JsVal) (h : j ≠ k) :
    (o.assign k v).get? j = o.get? j := by
  unfold JsObj.assign
  split
  · exact JsObj.get?_set_ne o k j v h
  · split
    · rfl
    · exact JsObj.get?_set_ne o k j v h

/-- At a name that `Object.prototype` does not have and an entry that is a
number or missing, the update `o[k] = (o[k] || 0) + ms` stores the number. -/
theorem JsObj.assign_plain (o : JsObj JsVal) (k : String) (ms : Int)
    (hplain : inheritedText k = none) (hnum : ∀ s, o.get? k ≠ some (JsVal.str s)) :
    o.assign k (orZeroPlus (o.read k) ms) = o.set k (JsVal.num (numOf (o.get? k) + ms)) := by
  have hk := ne_proto_of_plain hplain
  unfold JsObj.assign JsObj.read
  cases hg : o.get? k with
  | none => simp [hplain, hk, orZeroPlus, numOf]
  | some v =>
    cases v with
    | num n =>
      by_cases hn : n = 0 <;> simp [orZeroPlus, numOf, hn]
    | str t => exact absurd hg (hnum t)

theorem JsObj.sumNums_set (o : JsObj JsVal) (k : String) (v : JsVal) :
    (o.set k v).sumNums = o.sumNums - numOf (o.get? k) + numOf (some v) := by
  induction o with
  | nil => simp [JsObj.set, JsObj.get?, JsObj.sumNums, numOf]
  | cons p rest ih =>
    obtain ⟨k', v'⟩ := p
    by_cases hk : k' = k
    · simp only [JsObj.set, JsObj.get?, hk, if_true]
      simp only [JsObj.sumNums, List.map_cons, List.sum_cons]
      ring
    · simp only [JsObj.set, JsObj.get?, hk, if_false]
      simp only [JsObj.sumNums, List.map_cons, List.sum_cons] at ih ⊢
      rw [ih]
      ring

/-- The update `o[k] = (o[k] || 0) + ms` raises the sum of the numeric entries
by `ms` or leaves it as it is. -/
theorem JsObj.sumNums_assign (o : JsObj JsVal) (k : String) (ms : Int) :
    (o.assign k (orZeroPlus (o.read k) ms)).sumNums = o.sumNums + ms ∨
    (o.assign k (orZeroPlus (o.read k) ms)).sumNums = o.sumNums := by
  unfold JsObj.assign JsObj.read
  cases hg : o.get? k with
  | none =>
    simp only []
    cases hi : inheritedText k with
    | none =>
      left
      have hk := ne_proto_of_plain hi
      simp only [hk, if_false, orZeroPlus, JsObj.sumNums_set, hg, numOf]
      ring
    | some text =>
      right
      by_cases hk : k = "__proto__"
      · simp [hk]
      · simp only [hk, if_false, orZeroPlus, JsObj.sumNums_set, hg, numOf]
        ring
  | some v =>
    cases v with
    | num n =>
      left
      by_cases hn : n = 0
      · simp only [orZeroPlus, JsObj.sumNums_set, hg, numOf, hn, if_true]
        ring
      · simp only [orZeroPlus, JsObj.sumNums_set, hg, numOf, hn, if_false]
        ring
    | str t =>
      by_cases ht : t = ""
      · left
        simp only [orZeroPlus, ht, if_true, JsObj.sumNums_set, hg, numOf]
        ring
      · right
        simp only [orZeroPlus, ht, if_false, JsObj.sumNums_set, hg, numOf]
        ring

theorem inheritedText_of_dash (k : String) (h : '-' ∈ k.data) : inheritedText k = none := by
  unfold inheritedText
  have h1 : k ≠ "__proto__" := by
    rintro rfl
    revert h; decide
  have h2 : k ≠ "constructor" := by
    rintro rfl
    revert h; decide
  have h3 : k ∉ ["__defineGetter__", "__defineSetter__", "hasOwnProperty",
      "__lookupGetter__", "__lookupSetter__", "isPrototypeOf", "propertyIsEnumerable",
      "toString", "valueOf", "toLocaleString"] := by
    intro hm
    simp only [List.mem_cons, List.mem_singleton, List.not_mem_nil, or_false] at hm
    rcases hm with rfl | rfl | rfl | rfl | rfl | rfl | rfl | rfl | rfl | rfl <;>
      (revert h; decide)
  simp [h1, h2, h3]

/-- The day keys of the UTC calendar never name a member of `Object.prototype`:
each contains a hyphen. -/
theorem dayKeyUTC_plain (ts : Int) : inheritedText (dayKeyUTC ts) = none := by
  apply inheritedText_of_dash
  unfold dayKeyUTC
  split
  · decide
  · simp [String.data_append]

/-! ## Reading back what `setState` wrote -/

theorem getState_setState (patch : TrackingState → TrackingState) (w : World) :
    getState (setState patch w) = patch (getState w) := rfl

/-! ## The two behaviours of `addTimeForCurrentDomain` -/

theorem addTime_of_attributes (env : Env) (endTs : Int) (w : World) (st : Int) (dom : String)
    (h : Attributes (getState w) st dom endTs) :
    addTimeForCurrentDomain env endTs w =
      setState (fun cur => { cur with
        totalsByDay := (getState w).totalsByDay.set (env.dayKey endTs)
          (orZero ((getState w).totalsByDay.get? (env.dayKey endTs)) + (endTs - st))
        domainsByDay := (getState w).domainsByDay.set (env.dayKey endTs)
          ((orEmpty ((getState w).domainsByDay.get? (env.dayKey endTs))).assign dom
            (orZeroPlus ((orEmpty ((getState w).domainsByDay.get? (env.dayKey endTs))).read dom)
              (endTs - st)))
        lastSwitchTs := some endTs }) w := by
  obtain ⟨h1, h2, h3, h4, h5, h6, h7⟩ := h
  have hmax : max 0 (endTs - st) = endTs - st := max_eq_right (by omega)
  have hpos : ¬ (endTs - st ≤ 0) := by omega
  unfold addTimeForCurrentDomain
  simp [h1, h2, h3, h4, h5, h6, truthyNum, truthyStr, hmax, hpos]

theorem addTime_cases (env : Env) (endTs : Int) (w : World) :
    addTimeForCurrentDomain env endTs w = w ∨
      ∃ st dom, Attributes (getState w) st dom endTs := by
  by_cases h1 : (getState w).sessionActive = true
  swap
  · left; unfold addTimeForCurrentDomain; simp [h1]
  by_cases h2 : (getState w).idleState = IdleState.active
  swap
  · left; unfold addTimeForCurrentDomain; simp [h1, h2]
  cases h3 : (getState w).lastSwitchTs with
  | none => left; unfold addTimeForCurrentDomain; simp [h1, h2, h3, truthyNum]
  | some st =>
    cases h5 : (getState w).lastActiveDomain with
    | none => left; unfold addTimeForCurrentDomain; simp [h1, h2, h3, h5, truthyStr]
    | some dom =>
      by_cases h4 : st = 0
      · left; unfold addTimeForCurrentDomain; simp [h1, h2, h3, h5, h4, truthyNum]
      by_cases h6 : dom = ""
      · left; unfold addTimeForCurrentDomain; simp [h1, h2, h3, h5, h6, truthyStr]
      by_cases h7 : st < endTs
      · right; exact ⟨st, dom, h1, h2, h3, h4, h5, h6, h7⟩
      · left
        have hmax : max 0 (endTs - st) = 0 := max_eq_left (by omega)
        unfold addTimeForCurrentDomain
        simp [h1, h2, h3, h5, h4, h6, truthyNum, truthyStr, hmax]

/-! ## Which handlers touch the tallies -/

@[simp]
theorem getState_ensureOffscreen (w : World) :
    getState (ensureOffscreen w) = getState w := by
  unfold ensureOffscreen
  split <;> rfl

@[simp]
theorem getState_audioPlay (e : Option String) (w : World) :
    getState (audioPlay e w) = getState w := by
  show getState (ensureOffscreen w) = getState w
  simp

@[simp]
theorem getState_audioStop (w : World) : getState (audioStop w) = getState w := by
  unfold audioStop
  split <;> rfl

theorem tallies_onMessage (env : Env) (msg : Msg) (w : World) :
    tallies (getState (onMessage env msg w).1) = tallies (getState w) ∨
      ∃ t, tallies (getState (onMessage env msg w).1)
        = tallies (getState (addTimeForCurrentDomain env t w)) := by
  cases msg with
  | getState => left; rfl
  | startSession e audioOn t focusedUrl =>
    left
    simp only [onMessage, startSession]
    split
    · rfl
    · split <;> simp [getState_setState, tallies]
  | stopSession focusRating notes t =>
    simp only [onMessage, stopSession]
    split
    · left; rfl
    · right
      exact ⟨t, by simp [getState_setState, tallies]⟩
  | setEnv e =>
    left
    simp only [onMessage]
    split <;> simp [getState_setState, tallies]
  | toggleAudio audioOn =>
    left
    simp only [onMessage]
    split
    · simp [getState_setState, tallies]
    · split <;> simp [getState_setState, tallies]
  | savePreset name e audioOn durationMin uuid =>
    left
    simp [onMessage, getState_setState, tallies]
  | deletePreset id =>
    left
    simp [onMessage, getState_setState, tallies]
  | unrecognized type => left; rfl

theorem tallies_step (env : Env) (w : World) (ev : Event) :
    tallies (getState (step env w ev)) = tallies (getState w) ∨
      ∃ t, tallies (getState (step env w ev))
        = tallies (getState (addTimeForCurrentDomain env t w)) := by
  cases ev with
  | message msg => exact tallies_onMessage env msg w
  | tabActivated tabUrl t t' =>
    right
    refine ⟨t, ?_⟩
    simp only [step, onActivated]
    split
    · simp [setActiveDomainFromTab, getState_setState, tallies]
    · rfl
  | tabUpdated tabId infoUrl tabObjId t =>
    simp only [step, onUpdated]
    split
    · left; rfl
    · split
      · left; rfl
      · split
        · left; rfl
        · split
          · left; rfl
          · right
            exact ⟨t, by simp [getState_setState, tallies]⟩
  | idleChanged state t t' focusedUrl =>
    right
    refine ⟨t, ?_⟩
    simp only [step, onStateChanged]
    split
    · simp [getState_setState, tallies]
    · split <;> simp [getState_setState, tallies]

/-! ## Hostnames that name a member of `Object.prototype` -/

/-- C1, the code at the failing input. A session started from the default state
on the tab `http://__proto__/` and stopped five seconds later leaves
`totalsByDay["2023-11-14"] = 5000` while the day map of that day is empty: the
read `dayMap["__proto__"]` finds `Object.prototype`, `+` makes a string of it,
and the assignment of that string is ignored by the `__proto__` setter. The
reached state is not conserved. -/
theorem conservation_fails_on_proto_hostname :
    (getState (run hostEnv World.init protoRun)).totalsByDay = [("2023-11-14", 5000)] ∧
    (getState (run hostEnv World.init protoRun)).domainsByDay = [("2023-11-14", [])] ∧
    ¬ Conserved (getState (run hostEnv World.init protoRun)) := by
  refine ⟨by decide, by decide, ?_⟩
  intro h
  obtain ⟨m, hm, _, hs⟩ := h "2023-11-14" 5000 (by decide)
  have hm' : (getState (run hostEnv World.init protoRun)).domainsByDay.get? "2023-11-14"
      = some [] := by decide
  rw [hm'] at hm
  cases hm
  revert hs
  decide

/-- C5, the code at the failing input. In a running session anchored on the tab
`http://constructor/` with no entries yet, a tab-activated event five seconds
later creates the entry `domainsByDay["2023-11-14"]["constructor"]`, and the
value stored is the string `function Object() { [native code] }5000`, not a
non-negative number of ms: the read `dayMap["constructor"]` finds the inherited
function `Object`, which is truthy, and `+` concatenates. -/
theorem new_entry_is_a_string_on_constructor_hostname :
    (getState constructorTabWorld).domainsByDay = [] ∧
    (getState (step hostEnv constructorTabWorld
      (Event.tabActivated (some "https://a.com/") 1700000005000 1700000005000))).totalsByDay
      = [("2023-11-14", 5000)] ∧
    (getState (step hostEnv constructorTabWorld
      (Event.tabActivated (some "https://a.com/") 1700000005000 1700000005000))).domainsByDay
      = [("2023-11-14",
          [("constructor", JsVal.str "function Object() { [native code] }5000")])] := by
  decide

/-! ## Attribution by `addTimeForCurrentDomain` -/

/-- C2, as amended. For every state with `sessionActive = true`, `idleState =
active`, a non-null and non-zero `lastSwitchTs = st` and a non-null and
non-empty `lastActiveDomain = dom` (the sentinel `unknown` included) that is not
the name of a member of `Object.prototype`, whose entry in the day map of the
day of `endTs` is a number or missing, and every `endTs > st`: after
`addTimeForCurrentDomain endTs` the total of the day of `endTs` and the entry of
`dom` in that day's map are each the previous value (a missing entry counting as
0) plus `endTs - st`, every other domain entry of that day is unchanged, and
every other day key is unchanged in both tallies. The whole interval goes to the
day of `endTs`, whatever the day of `st`. -/
theorem closeInterval_attribution (env : Env) (w : World) (st : Int) (dom : String)
    (endTs : Int)
    (hact : (getState w).sessionActive = true)
    (hidle : (getState w).idleState = IdleState.active)
    (hts : (getState w).lastSwitchTs = some st) (hts0 : st ≠ 0)
    (hdom : (getState w).lastActiveDomain = some dom) (hdom0 : dom ≠ "")
    (hplain : inheritedText dom = none)
    (hnum : ∀ s, (orEmpty ((getState w).domainsByDay.get? (env.dayKey endTs))).get? dom
      ≠ some (JsVal.str s))
    (hlt : st < endTs) :
    (getState (addTimeForCurrentDomain env endTs w)).totalsByDay.get? (env.dayKey endTs)
        = some (orZero ((getState w).totalsByDay.get? (env.dayKey endTs)) + (endTs - st)) ∧
    (∃ m, (getState (addTimeForCurrentDomain env endTs w)).domainsByDay.get? (env.dayKey endTs)
        = some m ∧
      m.get? dom
        = some (JsVal.num
            (numOf ((orEmpty ((getState w).domainsByDay.get? (env.dayKey endTs))).get? dom)
              + (endTs - st))) ∧
      ∀ x, x ≠ dom →
        m.get? x = (orEmpty ((getState w).domainsByDay.get? (env.dayKey endTs))).get? x) ∧
    (∀ d, d ≠ env.dayKey endTs →
      (getState (addTimeForCurrentDomain env endTs w)).totalsByDay.get? d
        = (getState w).totalsByDay.get? d ∧
      (getState (addTimeForCurrentDomain env endTs w)).domainsByDay.get? d
        = (getState w).domainsByDay.get? d) := by
  rw [addTime_of_attributes env endTs w st dom ⟨hact, hidle, hts, hts0, hdom, hdom0, hlt⟩,
    getState_setState]
  refine ⟨JsObj.get?_set_self _ _ _, ⟨_, JsObj.get?_set_self _ _ _, ?_,
    fun x hx => JsObj.get?_assign_ne _ _ _ _ hx⟩, fun d hd => ⟨?_, ?_⟩⟩
  · rw [JsObj.assign_plain _ _ _ hplain hnum]
    exact JsObj.get?_set_self _ _ _
  · exact JsObj.get?_set_ne _ _ _ _ hd
  · exact JsObj.get?_set_ne _ _ _ _ hd

/-- Witness of `closeInterval_attribution`: five seconds on `a.com`. -/
theorem closeInterval_attribution_witness :
    (getState (addTimeForCurrentDomain hostEnv 1700000005000 aTabWorld)).totalsByDay.get?
        "2023-11-14" = some 5000 :=
  (closeInterval_attribution hostEnv aTabWorld 1700000000000 "a.com" 1700000005000
    (by decide) (by decide) (by decide) (by decide) (by decide) (by decide) (by decide)
    (fun s h => Option.noConfusion ((by decide :
      (orEmpty ((getState aTabWorld).domainsByDay.get? (hostEnv.dayKey 1700000005000))).get?
        "a.com" = none).symm.trans h))
    (by decide)).1

/-- C2 as stated fails: a running, active state whose `lastActiveDomain` is the
non-null empty hostname of a `file:` tab gets nothing attributed, although
`endTs` is five seconds after its non-null `lastSwitchTs`. -/
theorem closeInterval_attribution_fails_empty_domain :
    (getState fileTabWorld).sessionActive = true ∧
    (getState fileTabWorld).idleState = IdleState.active ∧
    (getState fileTabWorld).lastSwitchTs = some 1700000000000 ∧
    (getState fileTabWorld).lastActiveDomain = some "" ∧
    (getState (addTimeForCurrentDomain hostEnv 1700000005000 fileTabWorld)).totalsByDay.get?
        (hostEnv.dayKey 1700000005000) = none ∧
    (getState (addTimeForCurrentDomain hostEnv 1700000005000 fileTabWorld)).domainsByDay.get?
        (hostEnv.dayKey 1700000005000) = none := by
  decide

/-- C3, as amended. For every state with `sessionActive = true`, `idleState =
active` and a set anchor (`lastSwitchTs = st` non-null and non-zero,
`lastActiveDomain` non-null and non-empty): when `endTs > st` the state after
`addTimeForCurrentDomain endTs` has `lastSwitchTs = endTs`; when `endTs ≤ st`
(elapsed is 0 after clamping) the function returns early and the world,
`lastSwitchTs` included, is unchanged. -/
theorem closeInterval_boundary (env : Env) (w : World) (st : Int) (dom : String) (endTs : Int)
    (hact : (getState w).sessionActive = true)
    (hidle : (getState w).idleState = IdleState.active)
    (hts : (getState w).lastSwitchTs = some st) (hts0 : st ≠ 0)
    (hdom : (getState w).lastActiveDomain = some dom) (hdom0 : dom ≠ "") :
    (st < endTs → (getState (addTimeForCurrentDomain env endTs w)).lastSwitchTs = some endTs) ∧
    (endTs ≤ st → addTimeForCurrentDomain env endTs w = w) := by
  constructor
  · intro hlt
    rw [addTime_of_attributes env endTs w st dom ⟨hact, hidle, hts, hts0, hdom, hdom0, hlt⟩,
      getState_setState]
  · intro hle
    rcases addTime_cases env endTs w with h | ⟨st', _, _, _, h3, _, _, _, h7⟩
    · exact h
    · rw [hts] at h3
      cases h3
      omega

/-- Witness of `closeInterval_boundary` on the running world `aTabWorld`. -/
theorem closeInterval_boundary_witness :
    ((1700000000000 : Int) < 1700000005000 →
      (getState (addTimeForCurrentDomain hostEnv 1700000005000 aTabWorld)).lastSwitchTs
        = some 1700000005000) ∧
    ((1700000005000 : Int) ≤ 1700000000000 →
      addTimeForCurrentDomain hostEnv 1700000005000 aTabWorld = aTabWorld) :=
  closeInterval_boundary hostEnv aTabWorld 1700000000000 "a.com" 1700000005000
    (by decide) (by decide) (by decide) (by decide) (by decide) (by decide)

/-- C3 as stated fails: on a running, active state anchored at
1700000000000, `addTimeForCurrentDomain` at the earlier reading 1699999999000
leaves `lastSwitchTs` at the anchor instead of moving it to `endTs`. -/
theorem closeInterval_boundary_not_unconditional :
    (getState aTabWorld).sessionActive = true ∧
    (getState aTabWorld).idleState = IdleState.active ∧
    (getState (addTimeForCurrentDomain hostEnv 1699999999000 aTabWorld)).lastSwitchTs
      = some 1700000000000 ∧
    (getState (addTimeForCurrentDomain hostEnv 1699999999000 aTabWorld)).lastSwitchTs
      ≠ some 1699999999000 := by
  decide

/-! ## Idle gating -/

theorem addTime_of_gated (env : Env) (endTs : Int) (w : World)
    (h : (getState w).sessionActive = false ∨ (getState w).idleState ≠ IdleState.active) :
    addTimeForCurrentDomain env endTs w = w := by
  rcases addTime_cases env endTs w with hw | ⟨_, _, h1, h2, _⟩
  · exact hw
  · rcases h with h | h
    · rw [h1] at h; cases h
    · exact absurd h2 h

/-- C4. Idle gating: in every state with `sessionActive = false` or `idleState`
other than `active`, `addTimeForCurrentDomain endTs` leaves the whole world
unchanged for every `endTs`, and every handler execution from such a state
(any command, tab-activated, tab-url-updated, idle-state-changed to any state)
leaves `totalsByDay` and `domainsByDay` unchanged. -/
theorem idle_gating (env : Env) (w : World)
    (h : (getState w).sessionActive = false ∨ (getState w).idleState ≠ IdleState.active) :
    (∀ endTs, addTimeForCurrentDomain env endTs w = w) ∧
    ∀ ev, (getState (step env w ev)).totalsByDay = (getState w).totalsByDay ∧
      (getState (step env w ev)).domainsByDay = (getState w).domainsByDay := by
  refine ⟨fun endTs => addTime_of_gated env endTs w h, fun ev => ?_⟩
  have key : tallies (getState (step env w ev)) = tallies (getState w) := by
    rcases tallies_step env w ev with e | ⟨t, e⟩
    · exact e
    · rw [e, addTime_of_gated env t w h]
  exact ⟨congrArg Prod.fst key, congrArg Prod.snd key⟩

/-- Witness of `idle_gating` on a running session whose idle state is `idle`. -/
theorem idle_gating_witness :
    (∀ endTs, addTimeForCurrentDomain hostEnv endTs idleWorld = idleWorld) ∧
    ∀ ev, (getState (step hostEnv idleWorld ev)).totalsByDay = (getState idleWorld).totalsByDay ∧
      (getState (step hostEnv idleWorld ev)).domainsByDay
        = (getState idleWorld).domainsByDay :=
  idle_gating hostEnv idleWorld (Or.inr (by decide))

/-! ## The end-to-end scenario -/

theorem orString_empty (x : String) : orString (some x) "" = x := by
  by_cases h : x = "" <;> simp [orString, h]

/-- C6, as amended. From the default state, the scenario run at readings `T0`,
`T0 + 5000`, `T0 + 8000`, `T0 + 12000`, `T0 + 15000`, where none of the anchor
readings `T0`, `T0 + 5000`, `T0 + 12000` is 0 and the readings at which time is
attributed share the day key `today`, yields `domainsByDay[today]["a.com"] =
5000`, `domainsByDay[today]["b.com"] = 6000`, `totalsByDay[today] = 11000` and a
newest session record with `durationMs = 15000`. -/
theorem scenario_tallies (env : Env) (T0 : Int) (today : String) (e : Option String)
    (audioOn : Option Bool) (ua ub : String) (fu : Option String) (fr : Option Int)
    (notes : Option String)
    (h0 : T0 ≠ 0) (h5 : T0 + 5000 ≠ 0) (h12 : T0 + 12000 ≠ 0)
    (ha : env.urlHost ua = some "a.com") (hb : env.urlHost ub = some "b.com")
    (d5 : env.dayKey (T0 + 5000) = today) (d8 : env.dayKey (T0 + 8000) = today)
    (d15 : env.dayKey (T0 + 15000) = today) :
    (∃ m, (getState (run env World.init (scenario e audioOn ua ub fu fr notes T0))).domainsByDay.get?
        today = some m ∧ m.get? "a.com" = some (JsVal.num 5000) ∧ m.get? "b.com" = some (JsVal.num 6000)) ∧
    (getState (run env World.init (scenario e audioOn ua ub fu fr notes T0))).totalsByDay.get?
        today = some 11000 ∧
    ((getState (run env World.init (scenario e audioOn ua ub fu fr notes T0))).sessions.head?).map
        SessionRecord.durationMs = some 15000 := by
  have m1 : max 0 (T0 + 5000 - T0) = 5000 := by omega
  have m2 : max 0 (T0 + 8000 - (T0 + 5000)) = 3000 := by omega
  have m3 : max 0 (T0 + 15000 - (T0 + 12000)) = 3000 := by omega
  have m4 : max 0 (T0 + 15000 - T0) = 15000 := by omega
  by_cases haud : audioOn = some false <;>
  simp [haud, scenario, run, step, onMessage, startSession, stopSession, onActivated,
    onStateChanged, setActiveDomainFromTab, addTimeForCurrentDomain, setState, audioPlay,
    audioStop, ensureOffscreen, getState, World.init, defaultState, domainFromUrl,
    orString_empty, ha, hb, truthyNum, truthyStr, h0, h5, h12, m1, m2, m3, m4, d5, d8, d15,
    JsObj.get?, JsObj.set, JsObj.assign, JsObj.read, orZeroPlus, inheritedText, orZero, orEmpty,
    orNum]

/-- Witness of `scenario_tallies`: the scenario on 2023-11-14 in the UTC zone. -/
theorem scenario_tallies_witness :
    (∃ m, (getState (run hostEnv World.init (scenario (some "cafe") (some true) "https://a.com/"
        "https://b.com/x" none none none 1700000000000))).domainsByDay.get?
        "2023-11-14" = some m ∧ m.get? "a.com" = some (JsVal.num 5000) ∧ m.get? "b.com" = some (JsVal.num 6000)) ∧
    (getState (run hostEnv World.init (scenario (some "cafe") (some true) "https://a.com/"
        "https://b.com/x" none none none 1700000000000))).totalsByDay.get?
        "2023-11-14" = some 11000 ∧
    ((getState (run hostEnv World.init (scenario (some "cafe") (some true) "https://a.com/"
        "https://b.com/x" none none none 1700000000000))).sessions.head?).map
        SessionRecord.durationMs = some 15000 :=
  scenario_tallies hostEnv 1700000000000 "2023-11-14" (some "cafe") (some true)
    "https://a.com/" "https://b.com/x" none none none (by decide) (by decide) (by decide)
    (by decide) (by decide) (by decide) (by decide) (by decide)

/-- C6 as stated fails: run at the literal readings 0, 5000, 8000, 12000, 15000,
all on the day key `1970-01-01`, the scenario attributes nothing to `a.com`,
gives a day total of 6000 and a session record with `durationMs = 0`, because
the anchor reading 0 and the session start 0 are falsy. -/
theorem scenario_at_reading_zero :
    (∀ r ∈ [(0 : Int), 5000, 8000, 12000, 15000], hostEnv.dayKey r = "1970-01-01") ∧
    (getState (run hostEnv World.init (scenario (some "cafe") (some true) "https://a.com/"
        "https://b.com/x" none none none 0))).domainsByDay
      = [("1970-01-01", [("b.com", JsVal.num 6000)])] ∧
    (getState (run hostEnv World.init (scenario (some "cafe") (some true) "https://a.com/"
        "https://b.com/x" none none none 0))).totalsByDay = [("1970-01-01", 6000)] ∧
    ((getState (run hostEnv World.init (scenario (some "cafe") (some true) "https://a.com/"
        "https://b.com/x" none none none 0))).sessions.head?).map
        SessionRecord.durationMs = some 0 := by
  decide

/-! ## No double counting -/

theorem sumDays_set (o : JsObj (JsObj JsVal)) (k : String) (m : JsObj JsVal) :
    ((o.set k m).map (fun p => JsObj.sumNums p.2)).sum
      = (o.map (fun p => JsObj.sumNums p.2)).sum - (orEmpty (o.get? k)).sumNums
        + m.sumNums := by
  induction o with
  | nil => simp [JsObj.set, JsObj.get?, JsObj.sumNums, orEmpty]
  | cons p rest ih =>
    obtain ⟨k', v'⟩ := p
    by_cases hk : k' = k
    · simp only [JsObj.set, JsObj.get?, hk, if_true, orEmpty, List.map_cons, List.sum_cons]
      ring
    · simp only [JsObj.set, JsObj.get?, hk, if_false, List.map_cons, List.sum_cons] at ih ⊢
      rw [ih]
      ring

theorem addTime_frame (env : Env) (t : Int) (w : World) :
    (getState (addTimeForCurrentDomain env t w)).sessionActive = (getState w).sessionActive ∧
    (getState (addTimeForCurrentDomain env t w)).idleState = (getState w).idleState ∧
    (getState (addTimeForCurrentDomain env t w)).lastActiveDomain
      = (getState w).lastActiveDomain ∧
    (getState (addTimeForCurrentDomain env t w)).sessionStart = (getState w).sessionStart ∧
    (getState (addTimeForCurrentDomain env t w)).sessionEnv = (getState w).sessionEnv ∧
    (getState (addTimeForCurrentDomain env t w)).sessions = (getState w).sessions := by
  rcases addTime_cases env t w with hw | ⟨st, dom, ha⟩
  · rw [hw]
    simp
  · rw [addTime_of_attributes env t w st dom ha, getState_setState]
    simp

theorem addTime_effect (env : Env) (t : Int) (w : World) :
    addTimeForCurrentDomain env t w = w ∨
      ∃ st dom, Attributes (getState w) st dom t ∧
        (getState (addTimeForCurrentDomain env t w)).lastSwitchTs = some t ∧
        totalTracked (getState (addTimeForCurrentDomain env t w))
          = totalTracked (getState w) + (t - st) ∧
        totalByDomain (getState (addTimeForCurrentDomain env t w))
          ≤ totalByDomain (getState w) + (t - st) := by
  rcases addTime_cases env t w with hw | ⟨st, dom, ha⟩
  · exact Or.inl hw
  · right
    refine ⟨st, dom, ha, ?_⟩
    have hpos : 0 < t - st := by
      have := ha.2.2.2.2.2.2
      omega
    rw [addTime_of_attributes env t w st dom ha, getState_setState]
    refine ⟨rfl, ?_, ?_⟩
    · simp only [totalTracked, JsObj.sumValues_set]
      ring
    · simp only [totalByDomain, sumDays_set]
      rcases JsObj.sumNums_assign (orEmpty ((getState w).domainsByDay.get? (env.dayKey t))) dom
        (t - st) with h | h
      · rw [h]
        omega
      · rw [h]
        omega

theorem addTime_bound (env : Env) (t : Int) (w : World) (l : Int)
    (hl : (getState w).lastSwitchTs = some l) (hlt : l ≤ t) :
    ∃ l1, (getState (addTimeForCurrentDomain env t w)).lastSwitchTs = some l1 ∧ l ≤ l1 ∧ l1 ≤ t ∧
      totalTracked (getState (addTimeForCurrentDomain env t w))
        = totalTracked (getState w) + (l1 - l) := by
  rcases addTime_effect env t w with hw | ⟨st, dom, ha, h1, h2, _⟩
  · rw [hw]
    exact ⟨l, hl, le_refl l, hlt, by ring⟩
  · have hst : st = l := by
      have := ha.2.2.1
      rw [hl] at this
      exact (Option.some.inj this).symm
    subst hst
    exact ⟨t, h1, hlt, le_refl t, h2⟩

theorem within_addTime (env : Env) (T0 base t : Int) (w : World) (l : Int)
    (h : Within T0 base (getState w) l) (hlt : l ≤ t) :
    ∃ l1, Within T0 base (getState (addTimeForCurrentDomain env t w)) l1 ∧ l1 ≤ t := by
  obtain ⟨h1, h2, h3, h4⟩ := h
  obtain ⟨l1, e1, e2, e3, e4⟩ := addTime_bound env t w l h2 hlt
  refine ⟨l1, ⟨?_, e1, by omega, by omega⟩, e3⟩
  rw [(addTime_frame env t w).1]
  exact h1

theorem within_of_eq {T0 base l : Int} {s s' : TrackingState} (h : Within T0 base s l)
    (e1 : s'.sessionActive = s.sessionActive) (e2 : s'.lastSwitchTs = s.lastSwitchTs)
    (e3 : s'.totalsByDay = s.totalsByDay) : Within T0 base s' l := by
  unfold Within totalTracked
  rw [e1, e2, e3]
  exact h

theorem within_reanchor {T0 base l l' : Int} {s s' : TrackingState} (h : Within T0 base s l)
    (e1 : s'.sessionActive = s.sessionActive) (e2 : s'.lastSwitchTs = some l')
    (e3 : s'.totalsByDay = s.totalsByDay) (hl : l ≤ l') : Within T0 base s' l' := by
  obtain ⟨h1, _, h3, h4⟩ := h
  unfold Within totalTracked
  rw [e1, e2, e3]
  unfold totalTracked at h4
  exact ⟨h1, rfl, by omega, by omega⟩

theorem within_message (env : Env) (T0 base : Int) (w : World) (msg : Msg) (l : Int)
    (hmsg : (Event.message msg).isLifecycle = false)
    (h : Within T0 base (getState w) l) :
    Within T0 base (getState (onMessage env msg w).1) l := by
  cases msg with
  | getState => exact h
  | startSession e audioOn t focusedUrl => simp [Event.isLifecycle] at hmsg
  | stopSession focusRating notes t => simp [Event.isLifecycle] at hmsg
  | setEnv e =>
    simp only [onMessage]
    split <;> apply within_of_eq h <;> simp [getState_setState]
  | toggleAudio audioOn =>
    simp only [onMessage]
    split
    · apply within_of_eq h <;> simp [getState_setState]
    · split <;> apply within_of_eq h <;> simp [getState_setState]
  | savePreset name e audioOn durationMin uuid =>
    simp only [onMessage]
    apply within_of_eq h <;> simp [getState_setState]
  | deletePreset id =>
    simp only [onMessage]
    apply within_of_eq h <;> simp [getState_setState]
  | unrecognized type => exact h

theorem within_step (env : Env) (T0 base : Int) (w : World) (ev : Event) (rest : List Int)
    (l : Int) (hev : ev.isLifecycle = false) (h : Within T0 base (getState w) l)
    (hp : List.Sorted (· ≤ ·) (l :: (ev.readings ++ rest))) :
    ∃ l', Within T0 base (getState (step env w ev)) l' ∧ List.Sorted (· ≤ ·) (l' :: rest) := by
  cases ev with
  | message msg =>
    refine ⟨l, within_message env T0 base w msg l hev h, ?_⟩
    cases msg <;> simp [Event.isLifecycle] at hev <;> simpa [Event.readings] using hp
  | tabActivated tabUrl t t' =>
    simp only [Event.readings, List.cons_append, List.nil_append, List.Sorted,
      List.pairwise_cons, List.mem_cons] at hp
    obtain ⟨hl, ht, ht', hrest⟩ := hp
    have hlt : l ≤ t := hl t (Or.inl rfl)
    have htt : t ≤ t' := ht t' (Or.inl rfl)
    obtain ⟨l1, hw1, hl1⟩ := within_addTime env T0 base t w l h hlt
    simp only [step, onActivated]
    split
    · refine ⟨t', ?_, List.pairwise_cons.2 ⟨ht', hrest⟩⟩
      refine within_reanchor hw1 ?_ ?_ ?_ (by omega) <;>
        simp [setActiveDomainFromTab, getState_setState]
    · refine ⟨l1, hw1, List.pairwise_cons.2 ⟨?_, hrest⟩⟩
      intro r hr
      have : t' ≤ r := ht' r hr
      omega
  | tabUpdated tabId infoUrl tabObjId t =>
    simp only [Event.readings, List.cons_append, List.nil_append, List.Sorted,
      List.pairwise_cons, List.mem_cons] at hp
    obtain ⟨hl, ht, hrest⟩ := hp
    have hlt : l ≤ t := hl t (Or.inl rfl)
    have keep : List.Sorted (· ≤ ·) (l :: rest) :=
      List.pairwise_cons.2 ⟨fun r hr => hl r (Or.inr hr), hrest⟩
    obtain ⟨l1, hw1, hl1⟩ := within_addTime env T0 base t w l h hlt
    simp only [step, onUpdated]
    split
    · exact ⟨l, h, keep⟩
    · split
      · exact ⟨l, h, keep⟩
      · split
        · exact ⟨l, h, keep⟩
        · split
          · exact ⟨l, h, keep⟩
          · refine ⟨t, ?_, List.pairwise_cons.2 ⟨ht, hrest⟩⟩
            refine within_reanchor hw1 ?_ ?_ ?_ hl1 <;> simp [getState_setState]
  | idleChanged state t t' focusedUrl =>
    simp only [Event.readings, List.cons_append, List.nil_append, List.Sorted,
      List.pairwise_cons, List.mem_cons] at hp
    obtain ⟨hl, ht, ht', hrest⟩ := hp
    have hlt : l ≤ t := hl t (Or.inl rfl)
    have htt : t ≤ t' := ht t' (Or.inl rfl)
    obtain ⟨l1, hw1, hl1⟩ := within_addTime env T0 base t w l h hlt
    have keep : List.Sorted (· ≤ ·) (l1 :: rest) := by
      refine List.pairwise_cons.2 ⟨?_, hrest⟩
      intro r hr
      have : t' ≤ r := ht' r hr
      omega
    simp only [step, onStateChanged]
    split
    · refine ⟨l1, ?_, keep⟩
      apply within_of_eq hw1 <;> simp [getState_setState]
    · split
      · refine ⟨t', ?_, List.pairwise_cons.2 ⟨ht', hrest⟩⟩
        refine within_reanchor hw1 ?_ ?_ ?_ (by omega) <;> simp [getState_setState]
      · refine ⟨l1, ?_, keep⟩
        apply within_of_eq hw1 <;> simp [getState_setState]

theorem within_run (env : Env) (T0 base T1 : Int) (mid : List Event) :
    ∀ (w : World) (l : Int), (∀ ev ∈ mid, ev.isLifecycle = false) →
      Within T0 base (getState w) l →
      List.Sorted (· ≤ ·) (l :: (readingsOf mid ++ [T1])) →
      ∃ l', Within T0 base (getState (run env w mid)) l' ∧ l' ≤ T1 := by
  induction mid with
  | nil =>
    intro w l _ h hp
    refine ⟨l, h, ?_⟩
    simp only [readingsOf, List.nil_append, List.Sorted, List.pairwise_cons] at hp
    exact hp.1 T1 (List.mem_singleton.2 rfl)
  | cons ev rest ih =>
    intro w l hmid h hp
    simp only [readingsOf, List.append_assoc] at hp
    obtain ⟨l', hw', hp'⟩ := within_step env T0 base w ev (readingsOf rest ++ [T1]) l
      (hmid ev (List.mem_cons_self _ _)) h hp
    exact ih (step env w ev) l' (fun e he => hmid e (List.mem_cons_of_mem _ he)) hw' hp'

theorem run_append (env : Env) (w : World) (xs ys : List Event) :
    run env w (xs ++ ys) = run env (run env w xs) ys := by
  simp [run, List.foldl_append]

theorem total_diff_of_tallies {s s' : TrackingState} (e : tallies s' = tallies s) :
    totalTracked s' - totalByDomain s' = totalTracked s - totalByDomain s := by
  have e1 : s'.totalsByDay = s.totalsByDay := congrArg Prod.fst e
  have e2 : s'.domainsByDay = s.domainsByDay := congrArg Prod.snd e
  simp only [totalTracked, totalByDomain, e1, e2]

theorem total_diff_addTime (env : Env) (t : Int) (w : World) :
    totalTracked (getState w) - totalByDomain (getState w)
      ≤ totalTracked (getState (addTimeForCurrentDomain env t w))
        - totalByDomain (getState (addTimeForCurrentDomain env t w)) := by
  rcases addTime_effect env t w with hw | ⟨st, dom, _, _, h2, h3⟩
  · rw [hw]
  · omega

theorem total_diff_step (env : Env) (w : World) (ev : Event) :
    totalTracked (getState w) - totalByDomain (getState w)
      ≤ totalTracked (getState (step env w ev)) - totalByDomain (getState (step env w ev)) := by
  rcases tallies_step env w ev with e | ⟨t, e⟩
  · rw [total_diff_of_tallies e]
  · rw [total_diff_of_tallies e]
    exact total_diff_addTime env t w

theorem total_diff_run (env : Env) (evs : List Event) :
    ∀ w : World, totalTracked (getState w) - totalByDomain (getState w)
      ≤ totalTracked (getState (run env w evs)) - totalByDomain (getState (run env w evs)) := by
  induction evs with
  | nil => intro w; exact le_refl _
  | cons ev rest ih =>
    intro w
    exact le_trans (total_diff_step env w ev) (ih (step env w ev))

theorem within_start (env : Env) (w : World) (e : Option String) (audioOn : Option Bool)
    (T0 : Int) (fu : Option String) (hstopped : (getState w).sessionActive = false) :
    Within T0 (totalTracked (getState w))
      (getState (step env w (Event.message (Msg.startSession e audioOn T0 fu)))) T0 := by
  simp only [step, onMessage, startSession, hstopped]
  simp only [Bool.false_eq_true, if_false]
  split <;> simp [Within, getState_setState, totalTracked]

theorem stop_total (env : Env) (w : World) (fr : Option Int) (notes : Option String) (T1 : Int)
    (hact : (getState w).sessionActive = true) :
    totalTracked (getState (step env w (Event.message (Msg.stopSession fr notes T1))))
      = totalTracked (getState (addTimeForCurrentDomain env T1 w)) := by
  simp [step, onMessage, stopSession, hact, getState_setState, totalTracked]

/-- C7. No double counting: for every run that starts a session at reading `T0`
from a stopped state, continues with any finite sequence of tab-activated,
tab-url-updated and idle-state-changed events and of commands other than start
and stop, and stops at reading `T1`, the readings seen by the handlers being
non-decreasing, the sum of all `totalsByDay` values grows over the run by at
most `T1 - T0`, and so does the sum of all `domainsByDay` entries. -/
theorem no_double_counting (env : Env) (w : World) (e : Option String) (audioOn : Option Bool)
    (T0 : Int) (fu : Option String) (mid : List Event) (fr : Option Int)
    (notes : Option String) (T1 : Int)
    (hstopped : (getState w).sessionActive = false)
    (hmid : ∀ ev ∈ mid, ev.isLifecycle = false)
    (hclock : List.Sorted (· ≤ ·) (T0 :: (readingsOf mid ++ [T1]))) :
    totalTracked (getState (run env w
        (Event.message (Msg.startSession e audioOn T0 fu) ::
          (mid ++ [Event.message (Msg.stopSession fr notes T1)]))))
      - totalTracked (getState w) ≤ T1 - T0 ∧
    totalByDomain (getState (run env w
        (Event.message (Msg.startSession e audioOn T0 fu) ::
          (mid ++ [Event.message (Msg.stopSession fr notes T1)]))))
      - totalByDomain (getState w) ≤ T1 - T0 := by
  have key : totalTracked (getState (run env w
        (Event.message (Msg.startSession e audioOn T0 fu) ::
          (mid ++ [Event.message (Msg.stopSession fr notes T1)]))))
      - totalTracked (getState w) ≤ T1 - T0 := by
    show totalTracked (getState (run env
        (step env w (Event.message (Msg.startSession e audioOn T0 fu)))
        (mid ++ [Event.message (Msg.stopSession fr notes T1)]))) - _ ≤ _
    rw [run_append]
    obtain ⟨l, hw, hl⟩ := within_run env T0 (totalTracked (getState w)) T1 mid _ T0 hmid
      (within_start env w e audioOn T0 fu hstopped) hclock
    show totalTracked (getState (step env _ (Event.message (Msg.stopSession fr notes T1)))) - _ ≤ _
    rw [stop_total env _ fr notes T1 hw.1]
    obtain ⟨l1, hw1, hl1⟩ := within_addTime env T0 (totalTracked (getState w)) T1 _ l hw hl
    have := hw1.2.2.2
    omega
  refine ⟨key, ?_⟩
  have := total_diff_run env (Event.message (Msg.startSession e audioOn T0 fu) ::
          (mid ++ [Event.message (Msg.stopSession fr notes T1)])) w
  omega

/-- Witness of `no_double_counting`: the scenario's run, whose idle gap keeps the
tracked time below the span of the session. -/
theorem no_double_counting_witness :
    totalTracked (getState (run hostEnv World.init
        (Event.message (Msg.startSession (some "cafe") (some true) 1700000000000
            (some "https://a.com/")) ::
          ([Event.tabActivated (some "https://b.com/x") 1700000005000 1700000005000,
            Event.idleChanged IdleState.idle 1700000008000 1700000008000 none,
            Event.idleChanged IdleState.active 1700000012000 1700000012000
              (some "https://b.com/x")]
            ++ [Event.message (Msg.stopSession none none 1700000015000)]))))
      - totalTracked (getState World.init) ≤ 1700000015000 - 1700000000000 ∧
    totalByDomain (getState (run hostEnv World.init
        (Event.message (Msg.startSession (some "cafe") (some true) 1700000000000
            (some "https://a.com/")) ::
          ([Event.tabActivated (some "https://b.com/x") 1700000005000 1700000005000,
            Event.idleChanged IdleState.idle 1700000008000 1700000008000 none,
            Event.idleChanged IdleState.active 1700000012000 1700000012000
              (some "https://b.com/x")]
            ++ [Event.message (Msg.stopSession none none 1700000015000)]))))
      - totalByDomain (getState World.init) ≤ 1700000015000 - 1700000000000 :=
  no_double_counting hostEnv World.init (some "cafe") (some true) 1700000000000
    (some "https://a.com/")
    [Event.tabActivated (some "https://b.com/x") 1700000005000 1700000005000,
      Event.idleChanged IdleState.idle 1700000008000 1700000008000 none,
      Event.idleChanged IdleState.active 1700000012000 1700000012000 (some "https://b.com/x")]
    none none 1700000015000 (by decide) (by decide) (by decide)

/-! ## No time loss -/

theorem exact_addTime (env : Env) (T0 base t : Int) (w : World) (l : Int)
    (h : Exact T0 base (getState w) l) (hlt : l ≤ t) :
    (getState (addTimeForCurrentDomain env t w)).sessionActive = true ∧
    (getState (addTimeForCurrentDomain env t w)).idleState = IdleState.active ∧
    (∃ d, (getState (addTimeForCurrentDomain env t w)).lastActiveDomain = some d ∧ d ≠ "") ∧
    (getState (addTimeForCurrentDomain env t w)).lastSwitchTs = some t ∧
    totalTracked (getState (addTimeForCurrentDomain env t w)) - base = t - T0 := by
  obtain ⟨h1, h2, h3, h4, ⟨d, h5, h6⟩, h7⟩ := h
  obtain ⟨f1, f2, f3, _⟩ := addTime_frame env t w
  refine ⟨by rw [f1]; exact h1, by rw [f2]; exact h2, ⟨d, by rw [f3]; exact h5, h6⟩, ?_⟩
  by_cases hlt' : l < t
  · have ha : Attributes (getState w) l d t := ⟨h1, h2, h3, h4, h5, h6, hlt'⟩
    rcases addTime_effect env t w with hw | ⟨st, dom, ha', e1, e2, _⟩
    · exfalso
      have := addTime_of_attributes env t w l d ha
      rw [hw] at this
      have := congrArg (fun x => (getState x).lastSwitchTs) this
      simp only [getState_setState, h3] at this
      have := Option.some.inj this
      omega
    · have hst : st = l := by
        have := ha'.2.2.1
        rw [h3] at this
        exact (Option.some.inj this).symm
      subst hst
      exact ⟨e1, by omega⟩
  · have : l = t := by omega
    subst this
    have hw : addTimeForCurrentDomain env l w = w := by
      rcases addTime_cases env l w with hw | ⟨st, dom, ha'⟩
      · exact hw
      · have := ha'.2.2.1
        rw [h3] at this
        have := Option.some.inj this
        have := ha'.2.2.2.2.2.2
        omega
    rw [hw]
    exact ⟨h3, h7⟩

theorem exact_step (env : Env) (T0 base : Int) (w : World) (ev : Event) (rest : List Int)
    (l : Int) (hev : ev.isSingleReadingTab = true) (hdom : ev.tabDomain env ≠ some "")
    (hnz : ∀ r ∈ ev.readings, r ≠ 0) (h : Exact T0 base (getState w) l)
    (hp : List.Sorted (· ≤ ·) (l :: (ev.readings ++ rest))) :
    ∃ l', Exact T0 base (getState (step env w ev)) l' ∧ List.Sorted (· ≤ ·) (l' :: rest) := by
  cases ev with
  | message msg => simp [Event.isSingleReadingTab] at hev
  | idleChanged state t t' focusedUrl => simp [Event.isSingleReadingTab] at hev
  | tabActivated tabUrl t t' =>
    simp only [Event.isSingleReadingTab, decide_eq_true_eq] at hev
    subst hev
    simp only [Event.readings, List.cons_append, List.nil_append, List.Sorted,
      List.pairwise_cons, List.mem_cons] at hp
    obtain ⟨hl, _, ht', hrest⟩ := hp
    have hlt : l ≤ t := hl t (Or.inl rfl)
    have ht0 : t ≠ 0 := hnz t (by simp [Event.readings])
    obtain ⟨a1, a2, _, a4, a5⟩ := exact_addTime env T0 base t w l h hlt
    refine ⟨t, ?_, List.pairwise_cons.2 ⟨ht', hrest⟩⟩
    have hc : ((getState (addTimeForCurrentDomain env t w)).sessionActive &&
        decide ((getState (addTimeForCurrentDomain env t w)).idleState = IdleState.active))
          = true := by
      simp [a1, a2]
    simp only [step, onActivated, hc, if_true, setActiveDomainFromTab, getState_setState]
    refine ⟨a1, a2, rfl, ht0, ⟨_, rfl, ?_⟩, a5⟩
    intro hempty
    exact hdom (by simp [Event.tabDomain, hempty])
  | tabUpdated tabId infoUrl tabObjId t =>
    simp only [Event.readings, List.cons_append, List.nil_append, List.Sorted,
      List.pairwise_cons, List.mem_cons] at hp
    obtain ⟨hl, ht, hrest⟩ := hp
    have hlt : l ≤ t := hl t (Or.inl rfl)
    have ht0 : t ≠ 0 := hnz t (by simp [Event.readings])
    have keep : List.Sorted (· ≤ ·) (l :: rest) :=
      List.pairwise_cons.2 ⟨fun r hr => hl r (Or.inr hr), hrest⟩
    obtain ⟨a1, a2, _, a4, a5⟩ := exact_addTime env T0 base t w l h hlt
    simp only [step, onUpdated]
    split
    · exact ⟨l, h, keep⟩
    · split
      · exact ⟨l, h, keep⟩
      · split
        · exact ⟨l, h, keep⟩
        · split
          · exact ⟨l, h, keep⟩
          · rename_i url c1 _ c3
            refine ⟨t, ?_, List.pairwise_cons.2 ⟨ht, hrest⟩⟩
            simp only [getState_setState]
            refine ⟨a1, a2, rfl, ht0, ⟨_, rfl, ?_⟩, a5⟩
            intro hempty
            apply hdom
            have c3' : some tabId = tabObjId := by simpa using c3
            simp [Event.tabDomain, c1, c3', hempty]

theorem exact_run (env : Env) (T0 base T1 : Int) (mid : List Event) :
    ∀ (w : World) (l : Int), (∀ ev ∈ mid, ev.isSingleReadingTab = true) →
      (∀ ev ∈ mid, ev.tabDomain env ≠ some "") →
      (∀ r ∈ readingsOf mid, r ≠ 0) →
      Exact T0 base (getState w) l →
      List.Sorted (· ≤ ·) (l :: (readingsOf mid ++ [T1])) →
      ∃ l', Exact T0 base (getState (run env w mid)) l' ∧ l' ≤ T1 := by
  induction mid with
  | nil =>
    intro w l _ _ _ h hp
    refine ⟨l, h, ?_⟩
    simp only [readingsOf, List.nil_append, List.Sorted, List.pairwise_cons] at hp
    exact hp.1 T1 (List.mem_singleton.2 rfl)
  | cons ev rest ih =>
    intro w l hmid hdom hnz h hp
    simp only [readingsOf, List.append_assoc] at hp
    obtain ⟨l', hw', hp'⟩ := exact_step env T0 base w ev (readingsOf rest ++ [T1]) l
      (hmid ev (List.mem_cons_self _ _)) (hdom ev (List.mem_cons_self _ _))
      (fun r hr => hnz r (by simp [readingsOf, hr])) h hp
    exact ih (step env w ev) l' (fun e he => hmid e (List.mem_cons_of_mem _ he))
      (fun e he => hdom e (List.mem_cons_of_mem _ he))
      (fun r hr => hnz r (by simp [readingsOf, hr])) hw' hp'

theorem exact_start (env : Env) (w : World) (e : Option String) (audioOn : Option Bool)
    (T0 : Int) (fu : Option String) (hstopped : (getState w).sessionActive = false)
    (h0 : T0 ≠ 0) (hd : domainFromUrl env (orString fu "") ≠ "") :
    Exact T0 (totalTracked (getState w))
      (getState (step env w (Event.message (Msg.startSession e audioOn T0 fu)))) T0 := by
  simp only [step, onMessage, startSession, hstopped]
  simp only [Bool.false_eq_true, if_false]
  split <;> simp [Exact, getState_setState, totalTracked, h0, hd]

/-- C8, as amended. No time loss: for every run that starts a session at
reading `T0` from a stopped state with the focused tab resolving to a non-empty
domain, continues with any finite sequence of tab-activated and tab-url-updated
events and no idle-state change, and stops at reading `T1`, where each handler
observes a single clock reading, the readings are non-decreasing, no reading
that becomes an anchor is 0, and every tab the handlers anchor to resolves to a
non-empty domain (the sentinel `unknown` included), the sum of all `totalsByDay`
values grows over the run by exactly `T1 - T0`. -/
theorem no_time_loss (env : Env) (w : World) (e : Option String) (audioOn : Option Bool)
    (T0 : Int) (fu : Option String) (mid : List Event) (fr : Option Int)
    (notes : Option String) (T1 : Int)
    (hstopped : (getState w).sessionActive = false)
    (hmid : ∀ ev ∈ mid, ev.isSingleReadingTab = true)
    (hclock : List.Sorted (· ≤ ·) (T0 :: (readingsOf mid ++ [T1])))
    (hnz : ∀ r ∈ T0 :: readingsOf mid, r ≠ 0)
    (hstart : domainFromUrl env (orString fu "") ≠ "")
    (hdom : ∀ ev ∈ mid, ev.tabDomain env ≠ some "") :
    totalTracked (getState (run env w
        (Event.message (Msg.startSession e audioOn T0 fu) ::
          (mid ++ [Event.message (Msg.stopSession fr notes T1)]))))
      - totalTracked (getState w) = T1 - T0 := by
  show totalTracked (getState (run env
      (step env w (Event.message (Msg.startSession e audioOn T0 fu)))
      (mid ++ [Event.message (Msg.stopSession fr notes T1)]))) - _ = _
  rw [run_append]
  obtain ⟨l, hw, hl⟩ := exact_run env T0 (totalTracked (getState w)) T1 mid _ T0 hmid hdom
    (fun r hr => hnz r (List.mem_cons_of_mem _ hr))
    (exact_start env w e audioOn T0 fu hstopped (hnz T0 (List.mem_cons_self _ _)) hstart) hclock
  show totalTracked (getState (step env _ (Event.message (Msg.stopSession fr notes T1)))) - _ = _
  rw [stop_total env _ fr notes T1 hw.1]
  exact (exact_addTime env T0 (totalTracked (getState w)) T1 _ l hw hl).2.2.2.2

/-- Witness of `no_time_loss`: two tab events between start and stop. -/
theorem no_time_loss_witness :
    totalTracked (getState (run hostEnv World.init
        (Event.message (Msg.startSession (some "cafe") (some true) 1700000000000
            (some "https://a.com/")) ::
          ([Event.tabActivated (some "https://b.com/x") 1700000002000 1700000002000,
            Event.tabUpdated 7 (some "https://a.com/") (some 7) 1700000003000]
            ++ [Event.message (Msg.stopSession none none 1700000005000)]))))
      - totalTracked (getState World.init) = 1700000005000 - 1700000000000 :=
  no_time_loss hostEnv World.init (some "cafe") (some true) 1700000000000
    (some "https://a.com/")
    [Event.tabActivated (some "https://b.com/x") 1700000002000 1700000002000,
      Event.tabUpdated 7 (some "https://a.com/") (some 7) 1700000003000]
    none none 1700000005000 (by decide) (by decide) (by decide) (by decide) (by decide)
    (by decide)

/-- C8 as stated fails: a session started from the default state and stopped
five seconds later, with one tab-activated event for a `file:` tab (empty
hostname) after two seconds and single, increasing readings, tracks 2000 ms
instead of 5000 ms. -/
theorem no_time_loss_fails_on_file_tab :
    (getState World.init).sessionActive = false ∧
    List.Sorted (· ≤ ·) ((1700000000000 : Int) ::
      (readingsOf [Event.tabActivated (some "file:///notes.txt") 1700000002000 1700000002000]
        ++ [1700000005000])) ∧
    totalTracked (getState (run hostEnv World.init
        (Event.message (Msg.startSession (some "cafe") (some true) 1700000000000
            (some "https://a.com/")) ::
          ([Event.tabActivated (some "file:///notes.txt") 1700000002000 1700000002000]
            ++ [Event.message (Msg.stopSession none none 1700000005000)]))))
      - totalTracked (getState World.init) = 2000 := by
  decide

/-! ## Tab handlers -/

/-- C9, the code at the failing input. The session runs with the focused tab on
`a.com`; the listener is called for another tab, id 2, which navigated to
`b.com` in the background, with `tab.id = 2` as Chrome delivers it. The check
`tabId !== tab?.id` passes, the interval is closed and attribution is redirected
to `b.com`. -/
theorem onUpdated_background_tab_redirects :
    (getState aTabWorld).sessionActive = true ∧
    (getState aTabWorld).lastActiveDomain = some "a.com" ∧
    (getState (onUpdated hostEnv 2 (some "https://b.com/x") (some 2) 1700000005000
      aTabWorld)).lastActiveDomain = some "b.com" ∧
    (getState (onUpdated hostEnv 2 (some "https://b.com/x") (some 2) 1700000005000
      aTabWorld)).lastSwitchTs = some 1700000005000 ∧
    (getState (onUpdated hostEnv 2 (some "https://b.com/x") (some 2) 1700000005000
      aTabWorld)).domainsByDay = [("2023-11-14", [("a.com", JsVal.num 5000)])] ∧
    onUpdated hostEnv 2 (some "https://b.com/x") (some 2) 1700000005000 aTabWorld
      ≠ aTabWorld := by
  decide

/-- C10, as amended. For every state with `sessionActive = true` and `idleState
= active`, the tab-activated handler first applies `addTimeForCurrentDomain` at
its first reading `t` and then writes `lastActiveDomain`, the domain resolved
from the activated tab, and `lastSwitchTs`, the reading `t'` taken at that write
(the same instant when the handler observes one reading). For every state with
`sessionActive = false` or `idleState` other than `active` the handler leaves
the world unchanged: no field changes and no storage write is logged. -/
theorem onActivated_spec (env : Env) (w : World) (tabUrl : Option String) (t t' : Int) :
    ((getState w).sessionActive = true → (getState w).idleState = IdleState.active →
      onActivated env tabUrl t t' w
        = setState (fun cur => { cur with
            lastActiveDomain := some (domainFromUrl env (orString tabUrl ""))
            lastSwitchTs := some t' }) (addTimeForCurrentDomain env t w)) ∧
    ((getState w).sessionActive = false ∨ (getState w).idleState ≠ IdleState.active →
      onActivated env tabUrl t t' w = w) := by
  obtain ⟨f1, f2, _⟩ := addTime_frame env t w
  constructor
  · intro h1 h2
    have hc : ((getState (addTimeForCurrentDomain env t w)).sessionActive &&
        decide ((getState (addTimeForCurrentDomain env t w)).idleState = IdleState.active))
          = true := by
      simp [f1, f2, h1, h2]
    simp only [onActivated, hc, if_true, setActiveDomainFromTab]
  · intro h
    have hw := addTime_of_gated env t w h
    simp only [onActivated, hw]
    rcases h with h | h
    · simp [h]
    · simp [h]

/-- Witness of `onActivated_spec` on the running world `aTabWorld`. -/
theorem onActivated_spec_witness :
    onActivated hostEnv (some "https://b.com/x") 1700000005000 1700000005000 aTabWorld
      = setState (fun cur => { cur with
          lastActiveDomain := some (domainFromUrl hostEnv (orString (some "https://b.com/x") ""))
          lastSwitchTs := some 1700000005000 })
        (addTimeForCurrentDomain hostEnv 1700000005000 aTabWorld) :=
  (onActivated_spec hostEnv aTabWorld (some "https://b.com/x") 1700000005000
    1700000005000).1 (by decide) (by decide)

/-- C10 as stated fails: in a running session whose idle state is `idle`, the
tab-activated handler changes nothing; `lastActiveDomain` stays `a.com` and
`lastSwitchTs` stays at the earlier anchor. -/
theorem onActivated_ignored_while_idle :
    (getState idleWorld).sessionActive = true ∧
    (getState idleWorld).lastActiveDomain = some "a.com" ∧
    (getState idleWorld).lastSwitchTs = some 1700000003000 ∧
    onActivated hostEnv (some "https://b.com/x") 1700000005000 1700000005000 idleWorld
      = idleWorld := by
  decide

/-! ## Session lifecycle -/

theorem log_audioPlay (e : Option String) (w : World) :
    (audioPlay e w).log = w.log ++ playEffects w.offscreen e := by
  unfold audioPlay ensureOffscreen playEffects
  cases h : w.offscreen <;> simp [h]

theorem log_audioStop (w : World) : (audioStop w).log = w.log ++ stopEffects w.offscreen := by
  unfold audioStop stopEffects
  cases h : w.offscreen <;> simp [h]

theorem log_setState (patch : TrackingState → TrackingState) (w : World) :
    (setState patch w).log = w.log ++ [Effect.storageSet] := rfl

theorem offscreen_setState (patch : TrackingState → TrackingState) (w : World) :
    (setState patch w).offscreen = w.offscreen := rfl

theorem offscreen_addTime (env : Env) (t : Int) (w : World) :
    (addTimeForCurrentDomain env t w).offscreen = w.offscreen := by
  rcases addTime_cases env t w with hw | ⟨st, dom, ha⟩
  · rw [hw]
  · rw [addTime_of_attributes env t w st dom ha]
    rfl

/-- C11, as amended. For every running state whose `sessionStart = st` is
non-null and non-zero and every stop handled at reading `t`: `sessions` becomes
the first 200 entries of the new record followed by the old list, the record
being `{start: st, end: t, durationMs: max(0, t - st), env: sessionEnv,
focusRating, notes}`; `sessionActive` is false and `sessionStart`,
`lastActiveDomain`, `lastSwitchTs` are null; the tallies are those left by the
`addTimeForCurrentDomain t` that runs first; and after that call the log holds
the storage write followed by what `audioStop()` dispatches (the stop message
when the offscreen document exists), whatever `sessionAudioOn` is. -/
theorem stop_postcondition (env : Env) (w : World) (focusRating : Option Int) (notes : String)
    (t st : Int)
    (hact : (getState w).sessionActive = true)
    (hst : (getState w).sessionStart = some st) (hst0 : st ≠ 0) :
    (getState (stopSession env focusRating notes t w)).sessions
      = ({ start := some st, endTs := t, durationMs := max 0 (t - st),
           env := (getState w).sessionEnv, focusRating := focusRating, notes := notes }
          :: (getState w).sessions).take 200 ∧
    (getState (stopSession env focusRating notes t w)).sessionActive = false ∧
    (getState (stopSession env focusRating notes t w)).sessionStart = none ∧
    (getState (stopSession env focusRating notes t w)).lastActiveDomain = none ∧
    (getState (stopSession env focusRating notes t w)).lastSwitchTs = none ∧
    (getState (stopSession env focusRating notes t w)).totalsByDay
      = (getState (addTimeForCurrentDomain env t w)).totalsByDay ∧
    (getState (stopSession env focusRating notes t w)).domainsByDay
      = (getState (addTimeForCurrentDomain env t w)).domainsByDay ∧
    (stopSession env focusRating notes t w).log
      = (addTimeForCurrentDomain env t w).log ++ [Effect.storageSet]
          ++ stopEffects w.offscreen := by
  have hnum : orNum (some st) t = st := by simp [orNum, hst0]
  simp only [stopSession, hact, Bool.not_true, Bool.false_eq_true, if_false, getState_audioStop,
    getState_setState, log_audioStop, log_setState, offscreen_setState, offscreen_addTime, hst,
    hnum]
  simp

/-- Witness of `stop_postcondition`: stopping the session of `aTabWorld`. -/
theorem stop_postcondition_witness :
    (getState (stopSession hostEnv (some 4) "done" 1700000015000 aTabWorld)).sessions
      = [{ start := some 1700000000000, endTs := 1700000015000, durationMs := 15000,
           env := some "cafe", focusRating := some 4, notes := "done" }] :=
  (stop_postcondition hostEnv aTabWorld (some 4) "done" 1700000015000 1700000000000
    (by decide) (by decide) (by decide)).1

/-- C11 as stated fails: a running state whose `sessionStart` is the reading 0,
stopped at reading 15000 with an empty history, gets a record with `durationMs
= 0` instead of `max(0, 15000 - 0)`. -/
theorem stop_duration_with_zero_start :
    (getState zeroStartWorld).sessionActive = true ∧
    (getState zeroStartWorld).sessionStart = some 0 ∧
    (getState zeroStartWorld).sessions.length ≤ 200 ∧
    (getState (stopSession hostEnv none "" 15000 zeroStartWorld)).sessions
      = [{ start := some 0, endTs := 15000, durationMs := 0, env := some "cafe",
           focusRating := none, notes := "" }] ∧
    (getState (stopSession hostEnv none "" 15000 zeroStartWorld)).sessions
      ≠ ({ start := some 0, endTs := 15000, durationMs := max 0 (15000 - 0),
           env := some "cafe", focusRating := none, notes := "" }
          :: (getState zeroStartWorld).sessions).take 200 := by
  decide

/-- C12, as amended. For every stopped state and every start handled at reading
`t`: `sessionActive = true`, `sessionStart = t`, `sessionEnv` is `env || "library"`
(so `env` itself when it is a non-empty string), `sessionAudioOn` is `audioOn !==
false`, `lastActiveDomain` is the domain resolved from the focused tab,
`lastSwitchTs = t`, `idleState = active`; `totalsByDay`, `domainsByDay`,
`sessions` and `presets` are unchanged; and the log grows by the storage write
followed by what `audioPlay(env || "library")` dispatches exactly when the
resulting `sessionAudioOn` is true. -/
theorem start_postcondition (env : Env) (w : World) (e : Option String)
    (audioOn : Option Bool) (t : Int) (focusedUrl : Option String)
    (hstopped : (getState w).sessionActive = false) :
    (getState (startSession env e audioOn t focusedUrl w)).sessionActive = true ∧
    (getState (startSession env e audioOn t focusedUrl w)).sessionStart = some t ∧
    (getState (startSession env e audioOn t focusedUrl w)).sessionEnv
      = some (orString e "library") ∧
    (∀ x, e = some x → x ≠ "" →
      (getState (startSession env e audioOn t focusedUrl w)).sessionEnv = some x) ∧
    (getState (startSession env e audioOn t focusedUrl w)).sessionAudioOn
      = decide (audioOn ≠ some false) ∧
    (getState (startSession env e audioOn t focusedUrl w)).lastActiveDomain
      = some (domainFromUrl env (orString focusedUrl "")) ∧
    (getState (startSession env e audioOn t focusedUrl w)).lastSwitchTs = some t ∧
    (getState (startSession env e audioOn t focusedUrl w)).idleState = IdleState.active ∧
    (getState (startSession env e audioOn t focusedUrl w)).totalsByDay
      = (getState w).totalsByDay ∧
    (getState (startSession env e audioOn t focusedUrl w)).domainsByDay
      = (getState w).domainsByDay ∧
    (getState (startSession env e audioOn t focusedUrl w)).sessions = (getState w).sessions ∧
    (getState (startSession env e audioOn t focusedUrl w)).presets = (getState w).presets ∧
    (startSession env e audioOn t focusedUrl w).log
      = w.log ++ [Effect.storageSet]
          ++ (if (getState (startSession env e audioOn t focusedUrl w)).sessionAudioOn = true
              then playEffects w.offscreen (some (orString e "library")) else []) := by
  have hx : ∀ x, e = some x → x ≠ "" → orString e "library" = x := by
    intro x hx hne
    simp [hx, orString, hne]
  by_cases haud : audioOn = some false
  · simp [startSession, hstopped, haud, getState_setState, log_setState]
    exact hx
  · simp [startSession, hstopped, haud, getState_setState, log_setState, log_audioPlay,
      offscreen_setState]
    exact hx

/-- Witness of `start_postcondition`: starting from the default state. -/
theorem start_postcondition_witness :
    (getState (startSession hostEnv (some "cafe") (some true) 1700000000000
      (some "https://a.com/") World.init)).lastActiveDomain = some "a.com" :=
  ((start_postcondition hostEnv World.init (some "cafe") (some true) 1700000000000
    (some "https://a.com/") (by decide)).2.2.2.2.2.1).trans (by decide)

/-- C12 as stated fails: a start whose `env` is the empty string stores
`sessionEnv = "library"`, not `env`, and plays `library`. -/
theorem start_env_defaults_to_library :
    (getState World.init).sessionActive = false ∧
    (getState (startSession hostEnv (some "") (some true) 1700000000000
      (some "https://a.com/") World.init)).sessionEnv = some "library" ∧
    (getState (startSession hostEnv (some "") (some true) 1700000000000
      (some "https://a.com/") World.init)).sessionEnv ≠ some "" ∧
    (startSession hostEnv (some "") (some true) 1700000000000
      (some "https://a.com/") World.init).log
      = [Effect.storageSet, Effect.createOffscreen, Effect.sendAudioPlay (some "library")] := by
  decide

/-- C13. Lifecycle guards: in every state with `sessionActive = true` a
`START_SESSION` with any arguments leaves the world unchanged (no state change,
no storage write, no audio message) and responds ok; in every state with
`sessionActive = false` a `STOP_SESSION` with any arguments does the same, so no
session record is added. -/
theorem lifecycle_guards (env : Env) (w : World) :
    ((getState w).sessionActive = true →
      ∀ e audioOn t focusedUrl,
        onMessage env (Msg.startSession e audioOn t focusedUrl) w = (w, Response.ok)) ∧
    ((getState w).sessionActive = false →
      ∀ focusRating notes t,
        onMessage env (Msg.stopSession focusRating notes t) w = (w, Response.ok)) := by
  constructor
  · intro h e audioOn t focusedUrl
    simp [onMessage, startSession, h]
  · intro h focusRating notes t
    simp [onMessage, stopSession, h]

/-- Witness of `lifecycle_guards`: start on a running world, stop on the default
world. -/
theorem lifecycle_guards_witness :
    (∀ e audioOn t focusedUrl,
      onMessage hostEnv (Msg.startSession e audioOn t focusedUrl) aTabWorld
        = (aTabWorld, Response.ok)) ∧
    (∀ focusRating notes t,
      onMessage hostEnv (Msg.stopSession focusRating notes t) World.init
        = (World.init, Response.ok)) :=
  ⟨(lifecycle_guards hostEnv aTabWorld).1 (by decide),
    (lifecycle_guards hostEnv World.init).2 (by decide)⟩

/-! ## Idle-state changes -/

theorem getState_onStateChanged (env : Env) (state : IdleState) (t t' : Int)
    (focusedUrl : Option String) (w : World) :
    getState (onStateChanged env state t t' focusedUrl w)
      = if (getState w).sessionActive = true ∧ state = IdleState.active then
          { getState (addTimeForCurrentDomain env t w) with
            idleState := state
            lastActiveDomain := some (domainFromUrl env (orString focusedUrl ""))
            lastSwitchTs := some t' }
        else { getState (addTimeForCurrentDomain env t w) with idleState := state } := by
  have f1 := (addTime_frame env t w).1
  simp only [onStateChanged, getState_setState, f1]
  by_cases h1 : (getState w).sessionActive = true
  · by_cases h2 : state = IdleState.active
    · simp [h1, h2, f1, getState_setState]
    · simp [h1, h2, f1, getState_setState]
  · simp [h1, f1, getState_setState]

/-- C14, as amended. The idle-state-changed handler at readings `t`, `t'`: for
every state its tallies afterwards are those left by `addTimeForCurrentDomain t`
run on the prior state, so a running state whose prior idle state is active and
whose anchor is set (`lastSwitchTs = st` non-zero, `lastActiveDomain = dom`
non-empty) with `st < t`, where `dom` is not the name of a member of
`Object.prototype` and its entry for the day is a number or missing, gets
`t - st` added to the day total and to the entry of `dom`; then `idleState =
newState`; if `newState = active` and the session is running, `lastActiveDomain`
is the domain of the focused tab and `lastSwitchTs = t'`; if `newState` is idle
or locked, or the session is stopped, `lastActiveDomain` is unchanged. -/
theorem onIdleStateChanged_spec (env : Env) (w : World) (newState : IdleState) (t t' : Int)
    (focusedUrl : Option String) :
    (getState (onStateChanged env newState t t' focusedUrl w)).totalsByDay
      = (getState (addTimeForCurrentDomain env t w)).totalsByDay ∧
    (getState (onStateChanged env newState t t' focusedUrl w)).domainsByDay
      = (getState (addTimeForCurrentDomain env t w)).domainsByDay ∧
    (∀ st dom, Attributes (getState w) st dom t → inheritedText dom = none →
      (∀ s, (orEmpty ((getState w).domainsByDay.get? (env.dayKey t))).get? dom
        ≠ some (JsVal.str s)) →
      (getState (onStateChanged env newState t t' focusedUrl w)).totalsByDay.get? (env.dayKey t)
        = some (orZero ((getState w).totalsByDay.get? (env.dayKey t)) + (t - st)) ∧
      ∃ m, (getState (onStateChanged env newState t t' focusedUrl w)).domainsByDay.get?
          (env.dayKey t) = some m ∧
        m.get? dom
          = some (JsVal.num
              (numOf ((orEmpty ((getState w).domainsByDay.get? (env.dayKey t))).get? dom)
                + (t - st)))) ∧
    (getState (onStateChanged env newState t t' focusedUrl w)).idleState = newState ∧
    ((getState w).sessionActive = true → newState = IdleState.active →
      (getState (onStateChanged env newState t t' focusedUrl w)).lastActiveDomain
        = some (domainFromUrl env (orString focusedUrl "")) ∧
      (getState (onStateChanged env newState t t' focusedUrl w)).lastSwitchTs = some t') ∧
    ((getState w).sessionActive = false ∨ newState ≠ IdleState.active →
      (getState (onStateChanged env newState t t' focusedUrl w)).lastActiveDomain
        = (getState w).lastActiveDomain) := by
  have f3 := (addTime_frame env t w).2.2.1
  have e1 : (getState (onStateChanged env newState t t' focusedUrl w)).totalsByDay
      = (getState (addTimeForCurrentDomain env t w)).totalsByDay := by
    rw [getState_onStateChanged]
    split <;> rfl
  have e2 : (getState (onStateChanged env newState t t' focusedUrl w)).domainsByDay
      = (getState (addTimeForCurrentDomain env t w)).domainsByDay := by
    rw [getState_onStateChanged]
    split <;> rfl
  refine ⟨e1, e2, ?_, ?_, ?_, ?_⟩
  · intro st dom ha hplain hnum
    rw [e1, e2, addTime_of_attributes env t w st dom ha, getState_setState]
    refine ⟨JsObj.get?_set_self _ _ _, _, JsObj.get?_set_self _ _ _, ?_⟩
    rw [JsObj.assign_plain _ _ _ hplain hnum]
    exact JsObj.get?_set_self _ _ _
  · rw [getState_onStateChanged]
    split <;> rfl
  · intro h1 h2
    rw [getState_onStateChanged, if_pos ⟨h1, h2⟩]
    exact ⟨rfl, rfl⟩
  · intro h
    have hn : ¬ ((getState w).sessionActive = true ∧ newState = IdleState.active) := by
      rintro ⟨a, b⟩
      rcases h with h | h
      · rw [a] at h; cases h
      · exact h b
    rw [getState_onStateChanged, if_neg hn]
    exact f3

/-- Witness of `onIdleStateChanged_spec`: going idle after three seconds on
`a.com`. -/
theorem onIdleStateChanged_spec_witness :
    (getState (onStateChanged hostEnv IdleState.idle 1700000003000 1700000003000 none
      aTabWorld)).totalsByDay.get? "2023-11-14" = some 3000 :=
  ((onIdleStateChanged_spec hostEnv aTabWorld IdleState.idle 1700000003000 1700000003000
    none).2.2.1 1700000000000 "a.com"
    ⟨by decide, by decide, by decide, by decide, by decide, by decide, by decide⟩
    (by decide)
    (fun s h => Option.noConfusion ((by decide :
      (orEmpty ((getState aTabWorld).domainsByDay.get? (hostEnv.dayKey 1700000003000))).get?
        "a.com" = none).symm.trans h))).1

/-- C14 as stated fails: a running, active state anchored five seconds earlier on
the empty hostname of a `file:` tab gets nothing attributed when the idle state
changes. -/
theorem idle_change_drops_empty_domain_interval :
    (getState fileTabWorld).sessionActive = true ∧
    (getState fileTabWorld).idleState = IdleState.active ∧
    (getState fileTabWorld).lastSwitchTs = some 1700000000000 ∧
    (getState fileTabWorld).lastActiveDomain = some "" ∧
    (getState (onStateChanged hostEnv IdleState.idle 1700000005000 1700000005000 none
      fileTabWorld)).totalsByDay = [] ∧
    (getState (onStateChanged hostEnv IdleState.idle 1700000005000 1700000005000 none
      fileTabWorld)).domainsByDay = [] := by
  decide

/-! ## List caps -/

theorem addTime_lists (env : Env) (t : Int) (w : World) :
    (getState (addTimeForCurrentDomain env t w)).sessions = (getState w).sessions ∧
    (getState (addTimeForCurrentDomain env t w)).presets = (getState w).presets := by
  rcases addTime_cases env t w with hw | ⟨st, dom, ha⟩
  · rw [hw]
    exact ⟨rfl, rfl⟩
  · rw [addTime_of_attributes env t w st dom ha, getState_setState]
    exact ⟨rfl, rfl⟩

theorem listsStep_same {s s' : TrackingState} (e1 : s'.sessions = s.sessions)
    (e2 : s'.presets = s.presets) : ListsStep s s' :=
  ⟨Or.inl e1, Or.inl e2⟩

theorem listsStep_onMessage (env : Env) (msg : Msg) (w : World) :
    ListsStep (getState w) (getState (onMessage env msg w).1) := by
  cases msg with
  | getState => exact listsStep_same rfl rfl
  | startSession e audioOn t focusedUrl =>
    simp only [onMessage, startSession]
    split
    · exact listsStep_same rfl rfl
    · split <;> exact listsStep_same (by simp [getState_setState]) (by simp [getState_setState])
  | stopSession focusRating notes t =>
    simp only [onMessage, stopSession]
    split
    · exact listsStep_same rfl rfl
    · refine ⟨Or.inr ⟨{ start := (getState w).sessionStart
                        endTs := t
                        durationMs := max 0 (t - orNum (getState w).sessionStart t)
                        env := (getState w).sessionEnv
                        focusRating := focusRating
                        notes := notes.getD "" }, ?_⟩, Or.inl ?_⟩
      · simp only [getState_audioStop, getState_setState]
      · simp only [getState_audioStop, getState_setState]
        exact (addTime_lists env t w).2
  | setEnv e =>
    simp only [onMessage]
    split <;> exact listsStep_same (by simp [getState_setState]) (by simp [getState_setState])
  | toggleAudio audioOn =>
    simp only [onMessage]
    split
    · exact listsStep_same (by simp [getState_setState]) (by simp [getState_setState])
    · split <;> exact listsStep_same (by simp [getState_setState]) (by simp [getState_setState])
  | savePreset name e audioOn durationMin uuid =>
    simp only [onMessage]
    exact ⟨Or.inl (by simp [getState_setState]), Or.inr (Or.inl ⟨_, rfl⟩)⟩
  | deletePreset id =>
    simp only [onMessage]
    exact ⟨Or.inl (by simp [getState_setState]),
      Or.inr (Or.inr ⟨id, by simp [getState_setState]⟩)⟩
  | unrecognized type => exact listsStep_same rfl rfl

theorem listsStep_step (env : Env) (w : World) (ev : Event) :
    ListsStep (getState w) (getState (step env w ev)) := by
  cases ev with
  | message msg => exact listsStep_onMessage env msg w
  | tabActivated tabUrl t t' =>
    obtain ⟨a1, a2⟩ := addTime_lists env t w
    simp only [step, onActivated]
    split
    · exact listsStep_same (by simp [setActiveDomainFromTab, getState_setState, a1])
        (by simp [setActiveDomainFromTab, getState_setState, a2])
    · exact listsStep_same a1 a2
  | tabUpdated tabId infoUrl tabObjId t =>
    obtain ⟨a1, a2⟩ := addTime_lists env t w
    simp only [step, onUpdated]
    split
    · exact listsStep_same rfl rfl
    · split
      · exact listsStep_same rfl rfl
      · split
        · exact listsStep_same rfl rfl
        · split
          · exact listsStep_same rfl rfl
          · exact listsStep_same (by simp [getState_setState, a1])
              (by simp [getState_setState, a2])
  | idleChanged state t t' focusedUrl =>
    obtain ⟨a1, a2⟩ := addTime_lists env t w
    simp only [step, onStateChanged]
    split
    · exact listsStep_same (by simp [getState_setState, a1]) (by simp [getState_setState, a2])
    · split <;>
        exact listsStep_same (by simp [getState_setState, a1]) (by simp [getState_setState, a2])

theorem caps_of_listsStep {s s' : TrackingState} (h : ListsStep s s')
    (hs : s.sessions.length ≤ 200 ∧ s.presets.length ≤ 50) :
    s'.sessions.length ≤ 200 ∧ s'.presets.length ≤ 50 := by
  obtain ⟨h1, h2⟩ := h
  constructor
  · rcases h1 with e | ⟨r, e⟩
    · rw [e]; exact hs.1
    · rw [e, List.length_take]
      exact min_le_left _ _
  · rcases h2 with e | ⟨p, e⟩ | ⟨id, e⟩
    · rw [e]; exact hs.2
    · rw [e, List.length_take]
      exact min_le_left _ _
    · rw [e]
      exact le_trans (List.length_filter_le _ _) hs.2

theorem caps_run (env : Env) (evs : List Event) :
    ∀ w : World, ((getState w).sessions.length ≤ 200 ∧ (getState w).presets.length ≤ 50) →
      (getState (run env w evs)).sessions.length ≤ 200 ∧
      (getState (run env w evs)).presets.length ≤ 50 := by
  induction evs with
  | nil => intro w h; exact h
  | cons ev rest ih =>
    intro w h
    exact ih (step env w ev) (caps_of_listsStep (listsStep_step env w ev) h)

/-- C15. List caps: in every state reached from the default state by any
sequence of commands and events `sessions` has at most 200 entries and `presets`
at most 50; every handler execution changes the two lists only as `ListsStep`
allows; a `STOP_SESSION` on a running state puts the new record first and keeps
the first 200 entries, and a `SAVE_PRESET` puts the new preset first and keeps
the first 50, so only the oldest entries, at the tail, are evicted. -/
theorem list_caps (env : Env) (evs : List Event) :
    ((getState (run env World.init evs)).sessions.length ≤ 200 ∧
      (getState (run env World.init evs)).presets.length ≤ 50) ∧
    (∀ (w : World) (ev : Event), ListsStep (getState w) (getState (step env w ev))) ∧
    (∀ (w : World) focusRating notes t, (getState w).sessionActive = true →
      ∃ r : SessionRecord, r.endTs = t ∧
        (getState (onMessage env (Msg.stopSession focusRating notes t) w).1).sessions
          = (r :: (getState w).sessions).take 200) ∧
    (∀ (w : World) name e audioOn durationMin uuid,
      ∃ p : Preset, p.id = uuid ∧
        (getState (onMessage env (Msg.savePreset name e audioOn durationMin uuid) w).1).presets
          = (p :: (getState w).presets).take 50) := by
  refine ⟨caps_run env evs World.init (by decide), listsStep_step env, ?_, ?_⟩
  · intro w focusRating notes t h
    refine ⟨{ start := (getState w).sessionStart
              endTs := t
              durationMs := max 0 (t - orNum (getState w).sessionStart t)
              env := (getState w).sessionEnv
              focusRating := focusRating
              notes := notes.getD "" }, rfl, ?_⟩
    simp only [onMessage, stopSession, h, Bool.not_true, Bool.false_eq_true, if_false,
      getState_audioStop, getState_setState]
  · intro w name e audioOn durationMin uuid
    refine ⟨{ id := uuid
              name := name
              env := e
              audioOn := decide (audioOn ≠ some false)
              durationMin := orNum durationMin 25 }, rfl, ?_⟩
    simp only [onMessage, getState_setState]

/-! ## Commands -/

/-- C16. `DELETE_PRESET`: for every state and every id the command responds ok
and the resulting `presets` is the original list filtered to the entries whose
id differs, in their original order; when no preset carries the id the state is
unchanged. -/
theorem delete_preset_spec (env : Env) (w : World) (id : Option String) :
    (onMessage env (Msg.deletePreset id) w).2 = Response.ok ∧
    (getState (onMessage env (Msg.deletePreset id) w).1).presets
      = (getState w).presets.filter (fun p => decide (some p.id ≠ id)) ∧
    ((∀ p ∈ (getState w).presets, some p.id ≠ id) →
      getState (onMessage env (Msg.deletePreset id) w).1 = getState w) := by
  refine ⟨rfl, rfl, ?_⟩
  intro h
  have hf : (getState w).presets.filter (fun p => decide (some p.id ≠ id)) = (getState w).presets :=
    List.filter_eq_self.2 (fun p hp => by simpa using h p hp)
  simp only [onMessage, getState_setState, hf]

/-- Witness of `delete_preset_spec`: deleting an id that the one stored preset
does not carry. -/
theorem delete_preset_spec_witness :
    getState (onMessage hostEnv (Msg.deletePreset (some "p-2")) presetWorld).1
      = getState presetWorld :=
  (delete_preset_spec hostEnv presetWorld (some "p-2")).2.2 (by decide)

/-- C17. Unrecognized command: a received message whose `type` is none of the
seven recognized types gets the response `{ok: false, error}` and leaves the
world unchanged (no state change, no storage write, no audio message); a message
of a recognized type other than `GET_STATE` gets the response `{ok: true}`. -/
theorem unrecognized_command (env : Env) (raw : RawMsg) (t : Int) (focusedUrl : Option String)
    (uuid : String) (w : World) :
    (raw.type ∉ recognizedTypes →
      onRawMessage env raw t focusedUrl uuid w = (w, Response.error "Unknown message type")) ∧
    (raw.type ∈ recognizedTypes → raw.type ≠ "GET_STATE" →
      (onRawMessage env raw t focusedUrl uuid w).2 = Response.ok) := by
  constructor
  · intro h
    simp only [recognizedTypes, List.mem_cons, List.mem_singleton, List.not_mem_nil, or_false,
      not_or] at h
    obtain ⟨h1, h2, h3, h4, h5, h6, h7⟩ := h
    simp [onRawMessage, Msg.ofRaw, h1, h2, h3, h4, h5, h6, h7, onMessage]
  · intro h hg
    simp only [recognizedTypes, List.mem_cons, List.mem_singleton, List.not_mem_nil,
      or_false] at h
    rcases h with h | h | h | h | h | h | h
    · exact absurd h hg
    · simp [onRawMessage, Msg.ofRaw, h, onMessage]
    · simp [onRawMessage, Msg.ofRaw, h, onMessage]
    · simp [onRawMessage, Msg.ofRaw, h, onMessage]
    · simp only [onRawMessage, Msg.ofRaw, h, onMessage]
      simp
      split <;> try rfl
      split <;> rfl
    · simp [onRawMessage, Msg.ofRaw, h, onMessage]
    · simp [onRawMessage, Msg.ofRaw, h, onMessage]

/-- Witness of `unrecognized_command`: a `PAUSE_SESSION` message. -/
theorem unrecognized_command_witness :
    onRawMessage hostEnv
        { type := "PAUSE_SESSION", env := none, audioOn := none, focusRating := none,
          notes := none, name := none, durationMin := none, id := none }
        1700000005000 none "u-1" aTabWorld
      = (aTabWorld, Response.error "Unknown message type") :=
  (unrecognized_command hostEnv
    { type := "PAUSE_SESSION", env := none, audioOn := none, focusRating := none,
      notes := none, name := none, durationMin := none, id := none }
    1700000005000 none "u-1" aTabWorld).1 (by decide)

/-! ## Tab lookup failure, anchor invariant, environment and audio -/

theorem domain_of_missing_url (env : Env) (u : Option String) (hparse : env.urlHost "" = none)
    (hu : u = none ∨ u = some "") : domainFromUrl env (orString u "") = "unknown" := by
  rcases hu with h | h <;> simp [h, orString, domainFromUrl, hparse]

/-- C18, as amended. When the tab lookup gives no tab, a tab without url or an
empty url, and the URL parser rejects the empty string: a start from a stopped
state responds ok, sets `sessionActive = true`, `lastSwitchTs` to its reading
and `lastActiveDomain` to the sentinel `unknown`; a tab-activated event in a
running, active state and an idle-state-changed(active) event in a running state
keep `sessionActive = true` and set `lastActiveDomain = "unknown"` and
`lastSwitchTs` to the reading taken at that write. -/
theorem missing_tab_recovery (env : Env) (w : World) (u : Option String)
    (hparse : env.urlHost "" = none) (hu : u = none ∨ u = some "") :
    ((getState w).sessionActive = false → ∀ e audioOn t,
      (onMessage env (Msg.startSession e audioOn t u) w).2 = Response.ok ∧
      (getState (onMessage env (Msg.startSession e audioOn t u) w).1).sessionActive = true ∧
      (getState (onMessage env (Msg.startSession e audioOn t u) w).1).lastActiveDomain
        = some "unknown" ∧
      (getState (onMessage env (Msg.startSession e audioOn t u) w).1).lastSwitchTs = some t) ∧
    ((getState w).sessionActive = true → (getState w).idleState = IdleState.active → ∀ t t',
      (getState (onActivated env u t t' w)).sessionActive = true ∧
      (getState (onActivated env u t t' w)).lastActiveDomain = some "unknown" ∧
      (getState (onActivated env u t t' w)).lastSwitchTs = some t') ∧
    ((getState w).sessionActive = true → ∀ t t',
      (getState (onStateChanged env IdleState.active t t' u w)).sessionActive = true ∧
      (getState (onStateChanged env IdleState.active t t' u w)).lastActiveDomain
        = some "unknown" ∧
      (getState (onStateChanged env IdleState.active t t' u w)).lastSwitchTs = some t') := by
  have hd := domain_of_missing_url env u hparse hu
  refine ⟨?_, ?_, ?_⟩
  · intro h e audioOn t
    simp only [onMessage, startSession, h, Bool.false_eq_true, if_false]
    split <;> simp [getState_setState, hd]
  · intro h1 h2 t t'
    obtain ⟨f1, f2, _⟩ := addTime_frame env t w
    have hc : ((getState (addTimeForCurrentDomain env t w)).sessionActive &&
        decide ((getState (addTimeForCurrentDomain env t w)).idleState = IdleState.active))
          = true := by
      simp [f1, f2, h1, h2]
    simp only [onActivated, hc, if_true, setActiveDomainFromTab, getState_setState, hd]
    simp [f1, h1]
  · intro h1 t t'
    have f1 := (addTime_frame env t w).1
    simp [onStateChanged, getState_setState, f1, h1, hd]

/-- Witness of `missing_tab_recovery`: a start with no focused tab. -/
theorem missing_tab_recovery_witness :
    (getState (onMessage hostEnv (Msg.startSession (some "cafe") (some true) 1700000000000 none)
      World.init).1).lastActiveDomain = some "unknown" :=
  ((missing_tab_recovery hostEnv World.init none (by decide) (Or.inl rfl)).1 (by decide)
    (some "cafe") (some true) 1700000000000).2.2.1

/-- C18 as stated fails: with no tab answered, start, tab-activated and
idle-state-changed(active) set `lastActiveDomain` to `unknown`, not to the empty
domain. -/
theorem missing_tab_is_not_empty_domain :
    (getState (onMessage hostEnv (Msg.startSession (some "cafe") (some true) 1700000000000 none)
      World.init).1).lastActiveDomain = some "unknown" ∧
    (getState (onMessage hostEnv (Msg.startSession (some "cafe") (some true) 1700000000000 none)
      World.init).1).lastActiveDomain ≠ some "" ∧
    (getState (onActivated hostEnv none 1700000005000 1700000005000 aTabWorld)).lastActiveDomain
      = some "unknown" ∧
    (getState (onStateChanged hostEnv IdleState.active 1700000005000 1700000005000 none
      aTabWorld)).lastActiveDomain = some "unknown" := by
  decide

theorem anchored_addTime (env : Env) (t : Int) (w : World) (h : Anchored (getState w)) :
    Anchored (getState (addTimeForCurrentDomain env t w)) := by
  rcases addTime_cases env t w with hw | ⟨st, dom, ha⟩
  · rw [hw]; exact h
  · rw [addTime_of_attributes env t w st dom ha, getState_setState]
    have h5 := ha.2.2.2.2.1
    simp [Anchored, h5]

theorem anchored_of_eq {s s' : TrackingState} (h : Anchored s)
    (e1 : s'.lastActiveDomain = s.lastActiveDomain) (e2 : s'.lastSwitchTs = s.lastSwitchTs) :
    Anchored s' := by
  unfold Anchored
  rw [e1, e2]
  exact h

theorem anchored_onMessage (env : Env) (msg : Msg) (w : World) (h : Anchored (getState w)) :
    Anchored (getState (onMessage env msg w).1) := by
  cases msg with
  | getState => exact h
  | startSession e audioOn t focusedUrl =>
    simp only [onMessage, startSession]
    split
    · exact h
    · split <;> simp [Anchored, getState_setState]
  | stopSession focusRating notes t =>
    simp only [onMessage, stopSession]
    split
    · exact h
    · simp [Anchored, getState_setState]
  | setEnv e =>
    simp only [onMessage]
    split <;> apply anchored_of_eq h <;> simp [getState_setState]
  | toggleAudio audioOn =>
    simp only [onMessage]
    split
    · apply anchored_of_eq h <;> simp [getState_setState]
    · split <;> apply anchored_of_eq h <;> simp [getState_setState]
  | savePreset name e audioOn durationMin uuid =>
    simp only [onMessage]
    apply anchored_of_eq h <;> simp [getState_setState]
  | deletePreset id =>
    simp only [onMessage]
    apply anchored_of_eq h <;> simp [getState_setState]
  | unrecognized type => exact h

theorem anchored_step (env : Env) (w : World) (ev : Event) (h : Anchored (getState w)) :
    Anchored (getState (step env w ev)) := by
  cases ev with
  | message msg => exact anchored_onMessage env msg w h
  | tabActivated tabUrl t t' =>
    have h1 := anchored_addTime env t w h
    simp only [step, onActivated]
    split
    · simp [Anchored, setActiveDomainFromTab, getState_setState]
    · exact h1
  | tabUpdated tabId infoUrl tabObjId t =>
    simp only [step, onUpdated]
    split
    · exact h
    · split
      · exact h
      · split
        · exact h
        · split
          · exact h
          · simp [Anchored, getState_setState]
  | idleChanged state t t' focusedUrl =>
    have h1 := anchored_addTime env t w h
    simp only [step, onStateChanged]
    split
    · apply anchored_of_eq h1 <;> simp [getState_setState]
    · split
      · simp [Anchored, getState_setState]
      · apply anchored_of_eq h1 <;> simp [getState_setState]

theorem anchored_run (env : Env) (evs : List Event) :
    ∀ w : World, Anchored (getState w) → Anchored (getState (run env w evs)) := by
  induction evs with
  | nil => intro w h; exact h
  | cons ev rest ih =>
    intro w h
    exact ih (step env w ev) (anchored_step env w ev h)

/-- C19. Anchor invariant: in every state reached from the default state by any
sequence of commands and events, `lastActiveDomain` and `lastSwitchTs` are both
null or both non-null. -/
theorem anchor_invariant (env : Env) (evs : List Event) :
    ((getState (run env World.init evs)).lastActiveDomain = none ∧
      (getState (run env World.init evs)).lastSwitchTs = none) ∨
    ((∃ d, (getState (run env World.init evs)).lastActiveDomain = some d) ∧
      ∃ l, (getState (run env World.init evs)).lastSwitchTs = some l) := by
  have h := anchored_run env evs World.init rfl
  unfold Anchored at h
  cases hd : (getState (run env World.init evs)).lastActiveDomain with
  | none =>
    cases hl : (getState (run env World.init evs)).lastSwitchTs with
    | none => exact Or.inl ⟨rfl, rfl⟩
    | some l => rw [hd, hl] at h; cases h
  | some d =>
    cases hl : (getState (run env World.init evs)).lastSwitchTs with
    | none => rw [hd, hl] at h; cases h
    | some l => exact Or.inr ⟨⟨d, rfl⟩, ⟨l, rfl⟩⟩

/-- C20. `SET_ENV(env)` responds ok and changes only `sessionEnv`, to `env`; its
log grows by the storage write and, exactly when the session is running with
`sessionAudioOn` true, by what `audioPlay(env)` dispatches. `TOGGLE_AUDIO(b)`
responds ok and changes only `sessionAudioOn`, to `b`; its log grows by the
storage write and then by nothing when stopped, by what `audioPlay(sessionEnv)`
dispatches when running and `b` is true, by what `audioStop()` dispatches when
running and `b` is false. -/
theorem setEnv_toggleAudio_frame (env : Env) (w : World) :
    (∀ e,
      (onMessage env (Msg.setEnv e) w).2 = Response.ok ∧
      getState (onMessage env (Msg.setEnv e) w).1 = { getState w with sessionEnv := e } ∧
      (onMessage env (Msg.setEnv e) w).1.log
        = w.log ++ [Effect.storageSet]
            ++ (if (getState w).sessionActive = true ∧ (getState w).sessionAudioOn = true
                then playEffects w.offscreen e else [])) ∧
    (∀ b : Bool,
      (onMessage env (Msg.toggleAudio (some b)) w).2 = Response.ok ∧
      getState (onMessage env (Msg.toggleAudio (some b)) w).1
        = { getState w with sessionAudioOn := b } ∧
      (onMessage env (Msg.toggleAudio (some b)) w).1.log
        = w.log ++ [Effect.storageSet]
            ++ (if (getState w).sessionActive = false then []
                else if b = true then playEffects w.offscreen (getState w).sessionEnv
                else stopEffects w.offscreen)) := by
  constructor
  · intro e
    by_cases h1 : (getState w).sessionActive = true <;>
    by_cases h2 : (getState w).sessionAudioOn = true <;>
    simp [onMessage, getState_setState, log_setState, log_audioPlay, offscreen_setState, h1, h2]
  · intro b
    by_cases h1 : (getState w).sessionActive = true <;>
    cases b <;>
    simp [onMessage, getState_setState, log_setState, log_audioPlay, log_audioStop,
      offscreen_setState, h1]

end StudyEnv
